import Mathlib

/-!
Shallow embedding of the sleeptimer service
(`platform/service/sleeptimer/src/sl_sleeptimer.c`): the delta-list timer
scheduler, the dispatch loop of `process_timer_irq`, the millisecond/tick
conversions and the wall-clock/calendar subsystem, together with theorems
checking the specification's claims against these definitions.

Machine integers are modelled as `Nat` with explicit reductions modulo
`2^32` where the C code's `uint32_t` arithmetic can wrap.  Timer handles
are identified by a numeric `id` standing for the handle's address; the
intrusive linked list headed by `timer_head` is modelled as a `List` of
timer records in link order.
-/

set_option autoImplicit false

namespace Sleeptimer

/-- Truncation to `uint32_t`. -/
def mod32 (a : Nat) : Nat := a % 4294967296

/-- Subtraction on `uint32_t` values (wrapping, like C unsigned arithmetic). -/
def sub32 (a b : Nat) : Nat := (a % 4294967296 + 4294967296 - b % 4294967296) % 4294967296

/-- Status codes used by the sleeptimer API (subset of `sl_status_t`). -/
inductive SlStatus where
  | ok
  | null_pointer
  | invalid_parameter
  | invalid_state
  | not_ready
  | empty
deriving Repr, DecidableEq

/-- One timer handle (`sl_sleeptimer_timer_handle_t`).  The `next` pointer is
represented by list order; `id` stands for the handle's address. -/
structure Timer where
  id : Nat
  delta : Nat
  timeout_periodic : Nat
  callback : Bool
  priority : Nat
  option_flags : Nat
deriving Repr, DecidableEq

/-- The scheduler's global state: `timer_head` (the delta list, in link
order) and `last_delta_update_count`. -/
structure SchedState where
  timer_head : List Timer
  last_delta_update_count : Nat
deriving Repr, DecidableEq

/-- Loop of `delta_list_insert_timer`: walk the list keeping the running
remainder `ld` (`local_handle_delta`); the C loop condition is
`local_handle_delta >= current->delta || current->delta == 0 ||
((local_handle_delta - current->delta) == 0 && handle->priority > current->priority)`,
where the third disjunct's `uint32_t` test `x - y == 0` means `x = y`. -/
def insertLoop (h : Timer) : Nat → List Timer → List Timer
  | ld, [] => [{ h with delta := ld }]
  | ld, c :: rest =>
    if ld ≥ c.delta ∨ c.delta = 0 ∨ (ld = c.delta ∧ c.priority < h.priority) then
      c :: insertLoop h (ld - c.delta) rest
    else
      { h with delta := ld } :: { c with delta := c.delta - ld } :: rest

/-- Embeds `delta_list_insert_timer`. -/
def delta_list_insert_timer (l : List Timer) (h : Timer) (timeout : Nat) : List Timer :=
  insertLoop h timeout l

/-- Embeds `delta_list_remove_timer`: on success the removed handle's `delta`
is added (`uint32_t` addition) to its successor's `delta`; `none` models the
`SL_STATUS_INVALID_STATE` return when the handle is not on the list. -/
def delta_list_remove_timer : List Timer → Nat → Option (List Timer)
  | [], _ => none
  | c :: rest, i =>
    if c.id = i then
      some (match rest with
        | [] => []
        | n :: rest2 => { n with delta := mod32 (n.delta + c.delta) } :: rest2)
    else
      (delta_list_remove_timer rest i).map (fun l2 => c :: l2)

/-- Embeds `update_first_timer_delta`; `cnt` is the hardware counter value
read by `sleeptimer_hal_get_counter()`. -/
def update_first_timer_delta (s : SchedState) (cnt : Nat) : SchedState :=
  match s.timer_head with
  | [] => { timer_head := [], last_delta_update_count := cnt }
  | h :: rest =>
    let time_diff := sub32 cnt s.last_delta_update_count
    if h.delta ≥ time_diff then
      { timer_head := { h with delta := h.delta - time_diff } :: rest,
        last_delta_update_count := cnt }
    else
      { timer_head := { h with delta := 0 } :: rest,
        last_delta_update_count := sub32 cnt h.delta }

/-- Sum of the `delta` fields from the head through the first node whose id
is `i` (the node's relative fire offset from `last_delta_update_count`). -/
def sumThrough : List Timer → Nat → Nat
  | [], _ => 0
  | c :: rest, i => if c.id = i then c.delta else c.delta + sumThrough rest i

/-- Sum of the `delta` fields of the nodes strictly before the first node
whose id is `i`; if no node has id `i` this is the sum of all deltas. -/
def sumUntilId : List Timer → Nat → Nat
  | [], _ => 0
  | c :: rest, i => if c.id = i then 0 else c.delta + sumUntilId rest i

/-- Plain sum of all `delta` fields of a list. -/
def listDeltaSum (l : List Timer) : Nat := (l.map Timer.delta).sum

/-- Dereference `handle->delta`: if the handle is on the list the node on
the list is the handle itself (intrusive list), otherwise the caller's
record holds the (stale) field. -/
def handleDelta (l : List Timer) (h : Timer) : Nat :=
  match l.find? (fun t => t.id == h.id) with
  | some t => t.delta
  | none => h.delta

/-- Embeds `sl_sleeptimer_is_timer_running`'s list scan. -/
def sl_sleeptimer_is_timer_running (s : SchedState) (i : Nat) : Bool :=
  (s.timer_head.map Timer.id).contains i

/-- Embeds `create_timer`.  The returned `Bool` records whether the callback
was invoked synchronously during the call (the `timeout_initial == 0` path
invokes `handle->callback` when it is non-null). -/
def create_timer (s : SchedState) (cnt : Nat) (i : Nat)
    (timeout_initial timeout_periodic : Nat) (callback : Bool)
    (priority option_flags : Nat) : SlStatus × SchedState × Bool :=
  let h : Timer := { id := i, delta := 0, timeout_periodic := timeout_periodic,
                     callback := callback, priority := priority, option_flags := option_flags }
  if timeout_initial = 0 then
    if timeout_periodic ≠ 0 then
      let s1 := update_first_timer_delta s cnt
      (.ok, { timer_head := delta_list_insert_timer s1.timer_head h timeout_periodic,
              last_delta_update_count := s1.last_delta_update_count }, callback)
    else
      (.ok, s, callback)
  else
    let s1 := update_first_timer_delta s cnt
    (.ok, { timer_head := delta_list_insert_timer s1.timer_head h timeout_initial,
            last_delta_update_count := s1.last_delta_update_count }, false)

/-- Embeds `sl_sleeptimer_start_timer`; `none` models a NULL handle. -/
def sl_sleeptimer_start_timer (s : SchedState) (cnt : Nat) (handle : Option Nat)
    (timeout : Nat) (callback : Bool) (priority option_flags : Nat) :
    SlStatus × SchedState × Bool :=
  match handle with
  | none => (.null_pointer, s, false)
  | some i =>
    if sl_sleeptimer_is_timer_running s i then (.not_ready, s, false)
    else create_timer s cnt i timeout 0 callback priority option_flags

/-- Embeds `sl_sleeptimer_start_periodic_timer`. -/
def sl_sleeptimer_start_periodic_timer (s : SchedState) (cnt : Nat) (handle : Option Nat)
    (timeout : Nat) (callback : Bool) (priority option_flags : Nat) :
    SlStatus × SchedState × Bool :=
  match handle with
  | none => (.null_pointer, s, false)
  | some i =>
    if sl_sleeptimer_is_timer_running s i then (.invalid_state, s, false)
    else create_timer s cnt i timeout timeout callback priority option_flags

/-- Embeds `sl_sleeptimer_get_timer_time_remaining`.  `out0` is the value in
the caller's output variable before the call; the function first writes
`*time = handle->delta`, then adds the deltas of the nodes before the
handle (all the list's deltas when the handle is absent), and only on the
found path subtracts the ticks elapsed since `last_delta_update_count`
(saturating at zero).  Returns the status, the mutated scheduler state and
the final content of the output variable. -/
def sl_sleeptimer_get_timer_time_remaining (s : SchedState) (cnt : Nat) (h : Timer)
    (out0 : Nat) : SlStatus × SchedState × Nat :=
  let s1 := update_first_timer_delta s cnt
  let time0 := mod32 (handleDelta s1.timer_head h + sumUntilId s1.timer_head h.id)
  let _ := out0
  if (s1.timer_head.map Timer.id).contains h.id then
    let elapsed := sub32 cnt s1.last_delta_update_count
    if time0 > elapsed then (.ok, s1, time0 - elapsed) else (.ok, s1, 0)
  else (.not_ready, s1, time0)

/-- Loop of `sl_sleeptimer_get_remaining_time_of_first_timer`: accumulate
deltas (`uint32_t` addition) until the first node whose `option_flags`
equals the requested flags; the output is written only on success. -/
def grtLoop : List Timer → Nat → Nat → SlStatus × Option Nat
  | [], _, _ => (.empty, none)
  | t :: rest, flags, acc =>
    let acc2 := mod32 (acc + t.delta)
    if t.option_flags = flags then (.ok, some acc2) else grtLoop rest flags acc2

/-- Embeds `sl_sleeptimer_get_remaining_time_of_first_timer`.  Note that it
reads neither the hardware counter nor ages the head: it takes no `cnt`. -/
def sl_sleeptimer_get_remaining_time_of_first_timer (s : SchedState) (flags : Nat) :
    SlStatus × Option Nat :=
  grtLoop s.timer_head flags 0

/-- Inner scan of the compare branch of `process_timer_irq`: starting from
`current = timer_head` walk the expired nodes (`delta_tot_temp >= temp->delta`)
and keep the first node of strictly smallest priority. -/
def pickExpired : Timer → Nat → List Timer → Timer
  | cur, _, [] => cur
  | cur, dtt, t :: rest =>
    if t.delta ≤ dtt then
      pickExpired (if t.priority < cur.priority then t else cur) (dtt - t.delta) rest
    else cur

/-- The contiguous prefix of the list whose running cumulative deltas all
fit within `dtot` (the nodes the inner scan of `process_timer_irq` visits). -/
def expiredSeg : List Timer → Nat → List Timer
  | [], _ => []
  | t :: rest, dtot => if t.delta ≤ dtot then t :: expiredSeg rest (dtot - t.delta) else []

/-- Models the in-place write `current->delta = 0` performed while the node
is still linked. -/
def setDeltaZero (l : List Timer) (i : Nat) : List Timer :=
  l.map fun t => if t.id = i then { t with delta := 0 } else t

/-- The `while ((timer_head) && (delta_tot >= timer_head->delta))` loop of the
compare branch of `process_timer_irq`, with the hardware counter frozen and
callbacks that do not touch the timer list (so `delta_tot` is never
extended).  Each round picks the minimum-priority expired node, deducts its
delta from `delta_tot`, zeroes its delta, removes it, and re-inserts it with
its reload when periodic.  Returns the dispatched handles in callback order,
the remaining list and the remaining `delta_tot`; `fuel` bounds the number
of rounds. -/
def dispatchLoop : Nat → List Timer → Nat → List Timer × List Timer × Nat
  | 0, l, dtot => ([], l, dtot)
  | fuel + 1, l, dtot =>
    match l with
    | [] => ([], [], dtot)
    | h :: rest =>
      if h.delta ≤ dtot then
        let m := pickExpired h dtot (h :: rest)
        let dtot2 := dtot - m.delta
        let l1 := setDeltaZero (h :: rest) m.id
        let l2 := (delta_list_remove_timer l1 m.id).getD l1
        let l3 := if m.timeout_periodic ≠ 0 then
          delta_list_insert_timer l2 { m with delta := 0 } m.timeout_periodic else l2
        let r := dispatchLoop fuel l3 dtot2
        (m :: r.1, r.2.1, r.2.2)
      else ([], h :: rest, dtot)

/-- Dispatched handles, in the order their callbacks run. -/
def dispatchFired (l : List Timer) (dtot fuel : Nat) : List Timer :=
  (dispatchLoop fuel l dtot).1

/-- Decides whether, in `l`, a node with id `i` occurs strictly before a node
with id `j` (comparing against the first occurrence of `i`). -/
def idsBefore : List Timer → Nat → Nat → Bool
  | [], _, _ => false
  | t :: rest, i, j => if t.id = i then (rest.map Timer.id).contains j else idsBefore rest i j

/-- Erase the first node whose id is `i`. -/
def eraseFirstId : List Timer → Nat → List Timer
  | [], _ => []
  | t :: rest, i => if t.id = i then rest else t :: eraseFirstId rest i

/-- Dispatch-order relation relative to a delta list `l`: `a` fires before
`b` legitimately when `a` has a strictly smaller priority number, or the
same priority and `a` sits nearer the head of `l`. -/
def firesBeforeRel (l : List Timer) (a b : Timer) : Prop :=
  a.priority < b.priority ∨ (a.priority = b.priority ∧ idsBefore l a.id b.id = true)

/-! Millisecond/tick conversions. -/

/-- Embeds `sl_sleeptimer_ms_to_tick` for a 16-bit input:
`(uint32_t)((((uint32_t)time_ms * freq) / 1000) + 1)`. -/
def sl_sleeptimer_ms_to_tick (freq ms : Nat) : Nat :=
  mod32 (mod32 (ms * freq) / 1000 + 1)

/-- The precomputed guard from `sl_sleeptimer_init`:
`((uint64_t)UINT32_MAX * 1000) / freq` stored into a `uint32_t`. -/
def max_millisecond_conversion (freq : Nat) : Nat :=
  mod32 (4294967295 * 1000 / freq)

/-- Embeds `sl_sleeptimer_ms32_to_tick`; `none` models the
`SL_STATUS_INVALID_PARAMETER` return. -/
def sl_sleeptimer_ms32_to_tick (freq ms : Nat) : Option Nat :=
  if ms ≤ max_millisecond_conversion freq then
    some (mod32 (ms * freq / 1000 + 1))
  else none

/-! Wall-clock subsystem. -/

/-- Time formats of `sl_sleeptimer_time_format_t`. -/
inductive TimeFormat where
  | unix
  | ntp
  | zigbee
deriving Repr, DecidableEq

/-- `TIME_NTP_EPOCH_OFFSET_SEC = (70 * 365 + 17) * 86400`. -/
def TIME_NTP_EPOCH_OFFSET_SEC : Nat := ((1970 - 1900) * 365 + 17) * (60 * 60 * 24)

/-- `TIME_ZIGBEE_EPOCH_OFFSET_SEC = (30 * 365 + 7) * 86400`. -/
def TIME_ZIGBEE_EPOCH_OFFSET_SEC : Nat := ((2000 - 1970) * 365 + 7) * (60 * 60 * 24)

/-- `TIME_SEC_PER_DAY`. -/
def TIME_SEC_PER_DAY : Nat := 60 * 60 * 24

/-- `TIME_SEC_PER_YEAR`. -/
def TIME_SEC_PER_YEAR : Nat := TIME_SEC_PER_DAY * 365

/-- `TIME_LEAP_DAYS_UP_TO_YEAR` macro: `((year - 3) / 4) + 1`.  For
`year < 3` the C `int` expression truncates toward zero to `0`, matching
`Nat` truncated subtraction. -/
def TIME_LEAP_DAYS_UP_TO_YEAR (year : Nat) : Nat := (year - 3) / 4 + 1

/-- Embeds `is_valid_time`: the overflow check against the time zone offset,
then the per-format range check (`TIME_UNIX_TIMESTAMP_MAX = 0x7FFFFFFF`). -/
def is_valid_time (time : Nat) (format : TimeFormat) (tz : Int) : Bool :=
  let v0 : Bool := decide ((tz < 0 ∧ tz.natAbs < time) ∨ (0 ≤ tz ∧ time ≤ 4294967295 - tz.natAbs))
  match format with
  | .unix => v0 && decide (time ≤ 2147483647)
  | .ntp => v0 && decide (TIME_NTP_EPOCH_OFFSET_SEC ≤ time)
  | .zigbee => v0 && decide (time ≤ 2147483647 - TIME_ZIGBEE_EPOCH_OFFSET_SEC)

/-- Embeds `sl_sleeptimer_convert_unix_time_to_ntp` (`uint32_t` addition of
the epoch offset, then validation). -/
def sl_sleeptimer_convert_unix_time_to_ntp (time : Nat) : Option Nat :=
  let temp := mod32 (time + TIME_NTP_EPOCH_OFFSET_SEC)
  if is_valid_time temp .ntp 0 then some temp else none

/-- Embeds `sl_sleeptimer_convert_ntp_time_to_unix`. -/
def sl_sleeptimer_convert_ntp_time_to_unix (ntp_time : Nat) : Option Nat :=
  let temp := sub32 ntp_time TIME_NTP_EPOCH_OFFSET_SEC
  if is_valid_time temp .unix 0 then some temp else none

/-- Embeds `sl_sleeptimer_convert_unix_time_to_zigbee` (`uint32_t`
subtraction of the epoch offset, then validation). -/
def sl_sleeptimer_convert_unix_time_to_zigbee (time : Nat) : Option Nat :=
  let temp := sub32 time TIME_ZIGBEE_EPOCH_OFFSET_SEC
  if is_valid_time temp .zigbee 0 then some temp else none

/-- Embeds `sl_sleeptimer_convert_zigbee_time_to_unix`. -/
def sl_sleeptimer_convert_zigbee_time_to_unix (zigbee_time : Nat) : Option Nat :=
  let temp := mod32 (zigbee_time + TIME_ZIGBEE_EPOCH_OFFSET_SEC)
  if is_valid_time temp .unix 0 then some temp else none

/-- Wall-clock state: `second_count` and `overflow_tick_rest`. -/
structure ClockState where
  second_count : Nat
  overflow_tick_rest : Nat
deriving Repr, DecidableEq

/-- Embeds `sl_sleeptimer_get_time`; `cnt` is the hardware counter and
`freq` the timer frequency. -/
def sl_sleeptimer_get_time (c : ClockState) (cnt freq : Nat) : Nat :=
  let time := mod32 (c.second_count + cnt / freq)
  if cnt % freq + c.overflow_tick_rest ≥ freq then mod32 (time + 1) else time

/-- Embeds `sl_sleeptimer_set_time`.  On the out-of-range second failure the
state has already been mutated (the C code wrote `second_count` and cleared
the residue before the check), which the embedding reproduces. -/
def sl_sleeptimer_set_time (c : ClockState) (cnt freq : Nat) (time : Nat) :
    SlStatus × ClockState :=
  if is_valid_time time .unix 0 then
    let counter_sec := cnt / freq
    if counter_sec ≤ time then
      (.ok, { second_count := time - counter_sec, overflow_tick_rest := 0 })
    else
      (.invalid_parameter, { second_count := time, overflow_tick_rest := 0 })
  else (.invalid_parameter, c)

/-! Calendar conversions. -/

/-- Calendar date (`sl_sleeptimer_date_t`); `year` is offset from 1900 and
`month` counts from 0 (January). -/
structure Date where
  year : Nat
  month : Nat
  month_day : Nat
  day_of_week : Nat
  day_of_year : Nat
  hour : Nat
  min : Nat
  sec : Nat
  time_zone : Int
deriving Repr, DecidableEq

/-- The `days_in_month` table, selected by the leap flag. -/
def days_in_month (leap : Bool) : List Nat :=
  if leap then [31, 29, 31, 30, 31, 30, 31, 31, 30, 31, 30, 31]
  else [31, 28, 31, 30, 31, 30, 31, 31, 30, 31, 30, 31]

/-- Embeds `is_leap_year` (applied to the 1900-based year field). -/
def is_leap_year (year : Nat) : Bool :=
  year % 4 = 0 ∧ (year % 100 ≠ 0 ∨ year % 400 = 0)

/-- Embeds `compute_day_of_week`. -/
def compute_day_of_week (day : Nat) : Nat := (day + 4) % 7

/-- Embeds `is_valid_date` (`TIME_UNIX_YEAR_MAX = 138`,
`MONTH_DECEMBER = 11`, `MONTH_JANUARY = 0`). -/
def is_valid_date (d : Date) : Bool :=
  if d.year > 138 ∨ d.month > 11 ∨ d.month_day = 0
      ∨ d.month_day > (days_in_month (is_leap_year d.year)).getD d.month 0
      ∨ d.hour > 23 ∨ d.min > 59 ∨ d.sec > 59 then
    false
  else if d.year = 138 then
    decide (¬(d.month > 0 ∨ d.month_day > 19 ∨ d.hour > 3 ∨ d.min > 14 ∨ d.sec > 7))
  else true

/-- Embeds `sl_sleeptimer_convert_date_to_time`.  `full_year` reproduces the
`uint8_t` wrap of `date->year - 70`; the `uint32_t` accumulation of `*time`
(including adding the signed `time_zone`) is a single reduction modulo
`2^32` of the exact integer sum. -/
def sl_sleeptimer_convert_date_to_time (d : Date) : Option Nat :=
  if is_valid_date d then
    let full_year := ((((d.year : Int) - 70) % 256)).toNat
    let leap_days := if full_year > 2 then TIME_LEAP_DAYS_UP_TO_YEAR full_year else 0
    let leap_year_flag := is_leap_year d.year
    let month_days := leap_days + ((days_in_month leap_year_flag).take d.month).sum
      + (d.month_day - 1)
    let t : Int := ((mod32 (full_year * TIME_SEC_PER_YEAR)
      + mod32 (month_days * TIME_SEC_PER_DAY)
      + 3600 * d.hour + 60 * d.min + d.sec : Nat) : Int) + d.time_zone
    some (t % 4294967296).toNat
  else none

/-- The year-extraction block of `sl_sleeptimer_convert_time_to_date`:
returns the final `full_year` and `leap_day`.  The `uint32_t` subtraction
`time - leap_day` never wraps (`leap_day ≤ time / 365` whenever the branch
is taken), so `Nat` subtraction is exact. -/
def yearAndLeap (days : Nat) : Nat × Nat :=
  let fy0 := days / 365
  if fy0 > 2 then
    let leap1 := TIME_LEAP_DAYS_UP_TO_YEAR fy0
    let fy := (days - leap1) / 365
    (fy, TIME_LEAP_DAYS_UP_TO_YEAR fy)
  else (fy0, 0)

/-- The month loop of `sl_sleeptimer_convert_time_to_date`: subtract whole
months from the remaining day count. -/
def monthWalk : Nat → List Nat → Nat → Nat × Nat
  | m, [], t => (m, t)
  | m, dim :: rest, t => if dim ≤ t then monthWalk (m + 1) rest (t - dim) else (m, t)

/-- Embeds `sl_sleeptimer_convert_time_to_date`. -/
def sl_sleeptimer_convert_time_to_date (time : Nat) (tz : Int) : Option Date :=
  if is_valid_time time .unix tz then
    let sec := time % 60
    let t1 := time / 60
    let minute := t1 % 60
    let t2 := t1 / 60
    let hour := t2 % 24
    let days := t2 / 24
    let dow := compute_day_of_week days
    let p := yearAndLeap days
    let year := 70 + p.1
    let flag := is_leap_year year
    let rem := days - p.2 - 365 * p.1
    let mw := monthWalk 0 (days_in_month flag) rem
    some { year := year, month := mw.1, month_day := mw.2 + 1,
           day_of_week := dow, day_of_year := rem + 1,
           hour := hour, min := minute, sec := sec, time_zone := tz }
  else none

/-- Leap-day correction applied by `sl_sleeptimer_convert_date_to_time` to a
1970-based year count (`month_days` starts from `leap_days` when
`full_year > 2`, else from `0`). -/
def leapC (fy : Nat) : Nat := if fy > 2 then TIME_LEAP_DAYS_UP_TO_YEAR fy else 0

/-- Decidable per-month check for the calendar round trip: composing a valid
`(mo, dd)` into a day-of-year offset and walking the month table recovers
the pair, together with the bounds on the offset used by the round-trip
proof. -/
def monthCheck (flag : Bool) (mo dd : Nat) : Bool :=
  let row := days_in_month flag
  if mo ≤ 11 ∧ 1 ≤ dd ∧ dd ≤ row.getD mo 0 then
    let r := (row.take mo).sum + (dd - 1)
    decide (monthWalk 0 row r = (mo, dd - 1) ∧ r ≤ 365 ∧ (r = 365 → flag = true)
      ∧ (r = 365 → mo = 11 ∧ dd = 31) ∧ (row.take mo).sum ≤ 335)
  else true

/-! Concrete inputs used by the witnesses and counterexamples below. -/

/-- A timer sitting on the example delta list. -/
def exTimerOn : Timer :=
  { id := 1, delta := 5, timeout_periodic := 0, callback := true, priority := 2, option_flags := 0 }

/-- A fresh timer not on the example delta list. -/
def exTimerNew : Timer :=
  { id := 2, delta := 0, timeout_periodic := 0, callback := true, priority := 0, option_flags := 0 }

/-- Timer inserted first in the C2 counterexample (absolute fire tick 7). -/
def exInsB : Timer :=
  { id := 0, delta := 0, timeout_periodic := 0, callback := true, priority := 1, option_flags := 0 }

/-- Timer inserted second in the C2 counterexample (absolute fire tick 5,
same priority as `exInsB`). -/
def exInsA : Timer :=
  { id := 1, delta := 0, timeout_periodic := 0, callback := true, priority := 1, option_flags := 0 }

/-- Example delta list for the C2 witness: head expires at once, the second
timer two ticks later with a smaller priority number. -/
def exListC2 : List Timer :=
  [{ id := 1, delta := 0, timeout_periodic := 0, callback := true, priority := 5, option_flags := 0 },
   { id := 2, delta := 2, timeout_periodic := 0, callback := true, priority := 1, option_flags := 3 }]

/-- A handle that is not on the list, with a stale `delta` field. -/
def exHandleOff : Timer :=
  { id := 9, delta := 5, timeout_periodic := 0, callback := true, priority := 0, option_flags := 0 }

/-- December 31, 1972, 00:00:00 UTC: a valid date on which the calendar
round trip of the code is off by one day. -/
def exDateQuirk : Date :=
  { year := 72, month := 11, month_day := 31, day_of_week := 0, day_of_year := 0,
    hour := 0, min := 0, sec := 0, time_zone := 0 }

/-- January 1, 1970, 00:00:00 with a one-hour time zone offset. -/
def exDateTz : Date :=
  { year := 70, month := 0, month_day := 1, day_of_week := 0, day_of_year := 0,
    hour := 0, min := 0, sec := 0, time_zone := 3600 }

/-- February 29, 2024, 12:00:00 UTC (a leap day). -/
def exDateLeap : Date :=
  { year := 124, month := 1, month_day := 29, day_of_week := 0, day_of_year := 0,
    hour := 12, min := 0, sec := 0, time_zone := 0 }

/-- Example scheduler state with one pending timer. -/
def exSched : SchedState := { timer_head := [exTimerOn], last_delta_update_count := 100 }

/-! ## Lemmas about the delta list -/

/-- Inserting a fresh handle does not change the prefix sum of deltas
through any node already on the list: the loop keeps the running remainder
equal to the timeout minus the deltas already passed, and on splicing the
successor's delta drops by exactly the newcomer's delta. -/
theorem insertLoop_sumThrough (h : Timer) (i : Nat) :
    ∀ (l : List Timer) (ld : Nat), i ∈ l.map Timer.id → h.id ≠ i →
      sumThrough (insertLoop h ld l) i = sumThrough l i := by
  intro l
  induction l with
  | nil => intro ld hm _; simp at hm
  | cons c rest ih =>
    intro ld hm hne
    simp only [insertLoop]
    split
    · rename_i hcond
      have hle : c.delta ≤ ld := by rcases hcond with h1 | h2 | h3 <;> omega
      by_cases hc : c.id = i
      · simp [sumThrough, hc]
      · have hm2 : i ∈ rest.map Timer.id := by
          simp only [List.map_cons, List.mem_cons] at hm
          rcases hm with hm | hm
          · exact absurd hm.symm hc
          · exact hm
        simp [sumThrough, hc, ih (ld - c.delta) hm2 hne]
    · rename_i hcond
      push_neg at hcond
      by_cases hc : c.id = i
      · simp [sumThrough, hc, hne]
        omega
      · simp [sumThrough, hc, hne]
        omega

/-- Removing a node (whose delta is folded into its successor modulo
`2^32`) preserves the prefix sum of deltas through any other node,
modulo `2^32`. -/
theorem remove_sumThrough (i j : Nat) (hne : i ≠ j) :
    ∀ (l l2 : List Timer), j ∈ l.map Timer.id → delta_list_remove_timer l i = some l2 →
      sumThrough l2 j % 4294967296 = sumThrough l j % 4294967296 := by
  intro l
  induction l with
  | nil => intro l2 _ hr; simp [delta_list_remove_timer] at hr
  | cons c rest ih =>
    intro l2 hm hr
    simp only [delta_list_remove_timer] at hr
    split at hr
    · rename_i hc
      have hj : j ∈ rest.map Timer.id := by
        simp only [List.map_cons, List.mem_cons] at hm
        rcases hm with hm | hm
        · exact absurd (hm.trans hc).symm hne
        · exact hm
      cases rest with
      | nil => simp at hj
      | cons n rest2 =>
        have hl2 : l2 = { n with delta := mod32 (n.delta + c.delta) } :: rest2 := by
          injection hr with hr2
          exact hr2.symm
        subst hl2
        have hcj : c.id ≠ j := fun hh => hne (hc.symm.trans hh)
        by_cases hn : n.id = j
        · simp [sumThrough, hn, hcj, mod32]
          omega
        · simp [sumThrough, hn, hcj, mod32]
          omega
    · rename_i hc
      cases hrem : delta_list_remove_timer rest i with
      | none => rw [hrem] at hr; simp at hr
      | some r2 =>
        rw [hrem] at hr
        have hl2 : l2 = c :: r2 := by
          cases hr
          rfl
        subst hl2
        by_cases hcj : c.id = j
        · simp [sumThrough, hcj]
        · have hj : j ∈ rest.map Timer.id := by
            simp only [List.map_cons, List.mem_cons] at hm
            rcases hm with hm | hm
            · exact absurd hm.symm hcj
            · exact hm
          have hrec := ih r2 hj hrem
          simp [sumThrough, hcj]
          omega

/-- Claim C1: inserting a new timer with `delta_list_insert_timer` (any
timeout, any priority) or removing any other timer with
`delta_list_remove_timer` leaves the absolute fire time of a handle already
on the list unchanged: the sum of the deltas from the head through that
handle, added to `last_delta_update_count` modulo `2^32`, is the same
before and after the operation. -/
theorem insert_remove_preserve_fire_time (l : List Timer) (ldc : Nat) (i : Nat)
    (h : Timer) (timeout : Nat) (rid : Nat)
    (hmem : i ∈ l.map Timer.id) (hins : h.id ≠ i) (hrid : rid ≠ i) :
    (ldc + sumThrough (delta_list_insert_timer l h timeout) i) % 4294967296
        = (ldc + sumThrough l i) % 4294967296
      ∧ ∀ l2, delta_list_remove_timer l rid = some l2 →
        (ldc + sumThrough l2 i) % 4294967296 = (ldc + sumThrough l i) % 4294967296 := by
  constructor
  · rw [delta_list_insert_timer, insertLoop_sumThrough h i l timeout hmem hins]
  · intro l2 hr
    have := remove_sumThrough rid i hrid l l2 hmem hr
    omega

/-- Witness for C1 at a concrete list, insertion and removal. -/
theorem insert_remove_preserve_fire_time_witness :
    (1 ∈ [exTimerOn].map Timer.id ∧ exTimerNew.id ≠ 1 ∧ (7 : Nat) ≠ 1)
      ∧ ((100 + sumThrough (delta_list_insert_timer [exTimerOn] exTimerNew 3) 1) % 4294967296
          = (100 + sumThrough [exTimerOn] 1) % 4294967296
        ∧ ∀ l2, delta_list_remove_timer [exTimerOn] 7 = some l2 →
          (100 + sumThrough l2 1) % 4294967296 = (100 + sumThrough [exTimerOn] 1) % 4294967296) :=
  ⟨by decide,
   insert_remove_preserve_fire_time [exTimerOn] 100 1 exTimerNew 3 7
     (by decide) (by decide) (by decide)⟩

/-- Ageing the head changes only the head's `delta` (and the recorded
count), never the set or order of handles. -/
theorem update_ids (s : SchedState) (cnt : Nat) :
    (update_first_timer_delta s cnt).timer_head.map Timer.id = s.timer_head.map Timer.id := by
  unfold update_first_timer_delta
  cases hl : s.timer_head with
  | nil => rfl
  | cons h rest =>
    by_cases hd : h.delta ≥ sub32 cnt s.last_delta_update_count <;> simp [hd]

/-- The inserted handle ends up on the list. -/
theorem insertLoop_mem (h : Timer) :
    ∀ (l : List Timer) (ld : Nat), h.id ∈ (insertLoop h ld l).map Timer.id := by
  intro l
  induction l with
  | nil => intro ld; simp [insertLoop]
  | cons c rest ih =>
    intro ld
    simp only [insertLoop]
    split
    · simpa using Or.inr (ih (ld - c.delta))
    · simp

/-- A handle inserted with timeout `ld` into a list not containing it has
prefix-delta sum exactly `ld` afterwards. -/
theorem insertLoop_sumThrough_self (h : Timer) :
    ∀ (l : List Timer) (ld : Nat), h.id ∉ l.map Timer.id →
      sumThrough (insertLoop h ld l) h.id = ld := by
  intro l
  induction l with
  | nil => intro ld _; simp [insertLoop, sumThrough]
  | cons c rest ih =>
    intro ld hm
    have hc : c.id ≠ h.id := by
      intro hh
      exact hm (by simp [hh])
    have hm2 : h.id ∉ rest.map Timer.id := by
      intro hh
      exact hm (by simp [hh])
    simp only [insertLoop]
    split
    · rename_i hcond
      have hle : c.delta ≤ ld := by rcases hcond with h1 | h2 | h3 <;> omega
      simp [sumThrough, hc, ih (ld - c.delta) hm2]
      omega
    · simp [sumThrough]

/-- Claim C3: starting a not-running handle with timeout 0 invokes its
callback synchronously before `create_timer` returns; with
`timeout_periodic = 0` the call returns Ok leaving the scheduler state (and
in particular the delta list) unchanged, and with `timeout_periodic ≠ 0`
the handle is then on the delta list with the periodic reload as its
prefix-delta fire offset. -/
theorem create_timer_zero_timeout (s : SchedState) (cnt : Nat) (i : Nat) (tp : Nat)
    (priority option_flags : Nat) (hmem : i ∉ s.timer_head.map Timer.id) :
    (create_timer s cnt i 0 tp true priority option_flags).1 = .ok
      ∧ (create_timer s cnt i 0 tp true priority option_flags).2.2 = true
      ∧ (tp = 0 → (create_timer s cnt i 0 tp true priority option_flags).2.1 = s)
      ∧ (tp ≠ 0 →
          i ∈ (create_timer s cnt i 0 tp true priority option_flags).2.1.timer_head.map Timer.id
            ∧ sumThrough (create_timer s cnt i 0 tp true priority option_flags).2.1.timer_head i
                = tp) := by
  by_cases htp : tp = 0
  · simp [create_timer, htp]
  · have hmem2 : i ∉ (update_first_timer_delta s cnt).timer_head.map Timer.id := by
      rw [update_ids]
      exact hmem
    refine ⟨by simp [create_timer, htp], by simp [create_timer, htp], fun h => absurd h htp,
      fun _ => ⟨?_, ?_⟩⟩
    · simp only [create_timer, htp, if_pos rfl, if_neg, ne_eq, not_false_iff]
      simpa [htp, delta_list_insert_timer] using
        insertLoop_mem
          { id := i, delta := 0, timeout_periodic := tp, callback := true,
            priority := priority, option_flags := option_flags }
          (update_first_timer_delta s cnt).timer_head tp
    · simp only [create_timer, htp, if_pos rfl, if_neg, ne_eq, not_false_iff]
      simpa [htp, delta_list_insert_timer] using
        insertLoop_sumThrough_self
          { id := i, delta := 0, timeout_periodic := tp, callback := true,
            priority := priority, option_flags := option_flags }
          (update_first_timer_delta s cnt).timer_head tp hmem2

/-- Witness for C3 at a concrete fresh handle (both the one-shot and the
periodic zero-timeout case, via `tp = 0` and `tp = 200` instances would
need two applications; this witness uses `tp = 200`). -/
theorem create_timer_zero_timeout_witness :
    ((2 : Nat) ∉ exSched.timer_head.map Timer.id)
      ∧ ((create_timer exSched 103 2 0 200 true 4 0).1 = .ok
        ∧ (create_timer exSched 103 2 0 200 true 4 0).2.2 = true
        ∧ ((200 : Nat) = 0 → (create_timer exSched 103 2 0 200 true 4 0).2.1 = exSched)
        ∧ ((200 : Nat) ≠ 0 →
            2 ∈ (create_timer exSched 103 2 0 200 true 4 0).2.1.timer_head.map Timer.id
              ∧ sumThrough (create_timer exSched 103 2 0 200 true 4 0).2.1.timer_head 2
                  = 200)) :=
  ⟨by decide, create_timer_zero_timeout exSched 103 2 200 4 0 (by decide)⟩

/-- Claim C4: starting a handle that is already on the delta list is refused
with NotReady by `sl_sleeptimer_start_timer` and with InvalidState by
`sl_sleeptimer_start_periodic_timer`, leaving the scheduler state
unchanged in both cases. -/
theorem start_on_running_handle (s : SchedState) (cnt : Nat) (i : Nat) (timeout : Nat)
    (cb : Bool) (priority option_flags : Nat) (hmem : i ∈ s.timer_head.map Timer.id) :
    sl_sleeptimer_start_timer s cnt (some i) timeout cb priority option_flags
        = (.not_ready, s, false)
      ∧ sl_sleeptimer_start_periodic_timer s cnt (some i) timeout cb priority option_flags
        = (.invalid_state, s, false) := by
  have hrun : sl_sleeptimer_is_timer_running s i = true := by
    simp [sl_sleeptimer_is_timer_running, hmem]
  constructor
  · simp [sl_sleeptimer_start_timer, hrun]
  · simp [sl_sleeptimer_start_periodic_timer, hrun]

/-- Witness for C4 at a concrete running handle. -/
theorem start_on_running_handle_witness :
    (1 ∈ exSched.timer_head.map Timer.id)
      ∧ (sl_sleeptimer_start_timer exSched 103 (some 1) 50 true 4 0
          = (.not_ready, exSched, false)
        ∧ sl_sleeptimer_start_periodic_timer exSched 103 (some 1) 50 true 4 0
          = (.invalid_state, exSched, false)) :=
  ⟨by decide, start_on_running_handle exSched 103 1 50 true 4 0 (by decide)⟩

/-- If the handle is not on the list, `handle->delta` reads the caller's
record. -/
theorem handleDelta_not_mem (l : List Timer) (h : Timer)
    (hm : h.id ∉ l.map Timer.id) : handleDelta l h = h.delta := by
  unfold handleDelta
  have hf : l.find? (fun t => t.id == h.id) = none := by
    rw [List.find?_eq_none]
    intro t ht
    simp only [beq_iff_eq]
    intro hh
    exact hm (by simpa [hh] using List.mem_map_of_mem Timer.id ht)
  rw [hf]

/-- When the sought id is absent the scan of
`sl_sleeptimer_get_timer_time_remaining` adds every delta on the list. -/
theorem sumUntilId_not_mem (i : Nat) :
    ∀ l : List Timer, i ∉ l.map Timer.id → sumUntilId l i = listDeltaSum l := by
  intro l
  induction l with
  | nil => intro _; simp [sumUntilId, listDeltaSum]
  | cons c rest ih =>
    intro hm
    have hc : c.id ≠ i := by
      intro hh
      exact hm (by simp [hh])
    have hm2 : i ∉ rest.map Timer.id := by
      intro hh
      exact hm (by simp [hh])
    simp [sumUntilId, hc, ih hm2, listDeltaSum]

/-- Counterexample to C5 as stated: calling
`sl_sleeptimer_get_timer_time_remaining` on a handle that is not on the
(empty) list returns NotReady but overwrites the caller's output variable
(initially 7) with the handle's stale `delta` field (5). -/
theorem get_time_remaining_overwrites_output :
    (sl_sleeptimer_get_timer_time_remaining ⟨[], 0⟩ 0 exHandleOff 7).1 = .not_ready
      ∧ (sl_sleeptimer_get_timer_time_remaining ⟨[], 0⟩ 0 exHandleOff 7).2.2 = 5
      ∧ (sl_sleeptimer_get_timer_time_remaining ⟨[], 0⟩ 0 exHandleOff 7).2.2 ≠ 7 := by
  decide

/-- Claim C5, amended: on a handle that is not on the delta list the
function returns NotReady, but the output parameter is overwritten: it
receives the handle's `delta` field plus the sum of all deltas of the
(aged) list, reduced modulo `2^32`, instead of keeping its prior value. -/
theorem get_time_remaining_not_found (s : SchedState) (cnt : Nat) (h : Timer) (out0 : Nat)
    (hmem : h.id ∉ s.timer_head.map Timer.id) :
    (sl_sleeptimer_get_timer_time_remaining s cnt h out0).1 = .not_ready
      ∧ (sl_sleeptimer_get_timer_time_remaining s cnt h out0).2.2
        = (h.delta + listDeltaSum (update_first_timer_delta s cnt).timer_head) % 4294967296 := by
  have hmem2 : h.id ∉ (update_first_timer_delta s cnt).timer_head.map Timer.id := by
    rw [update_ids]
    exact hmem
  have hex : ¬ ∃ a ∈ (update_first_timer_delta s cnt).timer_head, a.id = h.id := by
    rintro ⟨a, ha, haid⟩
    exact hmem2 (by simpa [haid] using List.mem_map_of_mem Timer.id ha)
  simp [sl_sleeptimer_get_timer_time_remaining, hex, handleDelta_not_mem _ _ hmem2,
    sumUntilId_not_mem h.id _ hmem2, mod32]

/-- Witness for the amended C5 at a concrete state and handle. -/
theorem get_time_remaining_not_found_witness :
    (exHandleOff.id ∉ exSched.timer_head.map Timer.id)
      ∧ ((sl_sleeptimer_get_timer_time_remaining exSched 101 exHandleOff 7).1 = .not_ready
        ∧ (sl_sleeptimer_get_timer_time_remaining exSched 101 exHandleOff 7).2.2
          = (exHandleOff.delta
              + listDeltaSum (update_first_timer_delta exSched 101).timer_head) % 4294967296) :=
  ⟨by decide, get_time_remaining_not_found exSched 101 exHandleOff 7 (by decide)⟩

/-- Counterexample to C6 as stated: at the typical frequency 32768 Hz the
conversion of 1000 ms yields 32769 ticks, one more than the ceiling
`⌈1000·32768/1000⌉ = 32768` (the code computes `floor + 1`, not the
ceiling; the two differ exactly when 1000 divides `ms·f`).  The 32-bit
variant returns the same value. -/
theorem ms_to_tick_not_ceiling :
    sl_sleeptimer_ms_to_tick 32768 1000 = 32769
      ∧ sl_sleeptimer_ms_to_tick 32768 1000 ≠ (1000 * 32768 + 999) / 1000
      ∧ sl_sleeptimer_ms32_to_tick 32768 1000 = some 32769 := by
  decide

/-- Claim C6, amended: `sl_sleeptimer_ms_to_tick` returns
`ms·f/1000 + 1` (floor plus one), which equals the ceiling
`⌈ms·f/1000⌉` exactly when 1000 does not divide `ms·f`;
`sl_sleeptimer_ms32_to_tick` returns Ok with the same floor-plus-one value
exactly when `ms ≤ max_millisecond_conversion`, and InvalidParameter
otherwise. -/
theorem ms_to_tick_floor_plus_one (freq ms16 ms32 : Nat)
    (_hms16 : ms16 < 65536) (hmul : ms16 * freq < 4294967296)
    (hsmall : ms32 * freq / 1000 + 1 < 4294967296) :
    sl_sleeptimer_ms_to_tick freq ms16 = ms16 * freq / 1000 + 1
      ∧ (¬ 1000 ∣ ms16 * freq →
          sl_sleeptimer_ms_to_tick freq ms16 = (ms16 * freq + 999) / 1000)
      ∧ (ms32 ≤ max_millisecond_conversion freq →
          sl_sleeptimer_ms32_to_tick freq ms32 = some (ms32 * freq / 1000 + 1))
      ∧ (max_millisecond_conversion freq < ms32 →
          sl_sleeptimer_ms32_to_tick freq ms32 = none) := by
  have h1 : sl_sleeptimer_ms_to_tick freq ms16 = ms16 * freq / 1000 + 1 := by
    unfold sl_sleeptimer_ms_to_tick mod32
    omega
  refine ⟨h1, fun hdvd => ?_, fun hle => ?_, fun hgt => ?_⟩
  · rw [h1]
    omega
  · unfold sl_sleeptimer_ms32_to_tick mod32
    rw [if_pos hle]
    congr 1
    omega
  · unfold sl_sleeptimer_ms32_to_tick
    rw [if_neg (by omega)]

/-- Witness for the amended C6 at frequency 32768 Hz. -/
theorem ms_to_tick_floor_plus_one_witness :
    ((3 : Nat) < 65536 ∧ 3 * 32768 < 4294967296 ∧ 5 * 32768 / 1000 + 1 < 4294967296)
      ∧ (sl_sleeptimer_ms_to_tick 32768 3 = 3 * 32768 / 1000 + 1
        ∧ (¬ 1000 ∣ 3 * 32768 →
            sl_sleeptimer_ms_to_tick 32768 3 = (3 * 32768 + 999) / 1000)
        ∧ ((5 : Nat) ≤ max_millisecond_conversion 32768 →
            sl_sleeptimer_ms32_to_tick 32768 5 = some (5 * 32768 / 1000 + 1))
        ∧ (max_millisecond_conversion 32768 < 5 →
            sl_sleeptimer_ms32_to_tick 32768 5 = none)) :=
  ⟨by decide, ms_to_tick_floor_plus_one 32768 3 5 (by decide) (by decide) (by decide)⟩

/-- Counterexample to C7 as stated: the valid Unix timestamp 2100000000
(which is at most `2^31 - 1`) is rejected by
`sl_sleeptimer_convert_unix_time_to_ntp` because `t + 2208988800` wraps
around `2^32`, and the valid Unix timestamp 0 is rejected by
`sl_sleeptimer_convert_unix_time_to_zigbee` because `t - 946684800`
wraps. -/
theorem epoch_conversion_counterexample :
    sl_sleeptimer_convert_unix_time_to_ntp 2100000000 = none
      ∧ (2100000000 : Nat) ≤ 2147483647
      ∧ sl_sleeptimer_convert_unix_time_to_zigbee 0 = none := by
  decide

/-- Claim C7, amended: the Unix/NTP round trip is the identity exactly on
Unix timestamps `t ≤ 2^32 - 1 - 2208988800 = 2085978495` (valid Unix
timestamps above that bound are rejected with InvalidParameter because the
32-bit addition of the NTP offset wraps), and the Unix/Zigbee round trip is
the identity exactly on `946684800 ≤ t ≤ 2^31 - 1` (smaller timestamps are
rejected with InvalidParameter because the 32-bit subtraction of the Zigbee
offset wraps); the offsets are `(70·365+17)·86400` and `(30·365+7)·86400`
seconds. -/
theorem epoch_conversion_round_trip (t : Nat) (hval : t ≤ 2147483647) :
    (t ≤ 2085978495 →
        sl_sleeptimer_convert_unix_time_to_ntp t = some (t + ((1970 - 1900) * 365 + 17) * 86400)
          ∧ sl_sleeptimer_convert_ntp_time_to_unix (t + ((1970 - 1900) * 365 + 17) * 86400)
              = some t)
      ∧ (2085978495 < t → sl_sleeptimer_convert_unix_time_to_ntp t = none)
      ∧ (((2000 - 1970) * 365 + 7) * 86400 ≤ t →
          sl_sleeptimer_convert_unix_time_to_zigbee t
              = some (t - ((2000 - 1970) * 365 + 7) * 86400)
            ∧ sl_sleeptimer_convert_zigbee_time_to_unix (t - ((2000 - 1970) * 365 + 7) * 86400)
              = some t)
      ∧ (t < ((2000 - 1970) * 365 + 7) * 86400 →
          sl_sleeptimer_convert_unix_time_to_zigbee t = none) := by
  refine ⟨fun hle => ⟨?_, ?_⟩, fun hgt => ?_, fun hge => ⟨?_, ?_⟩, fun hlt => ?_⟩
  · unfold sl_sleeptimer_convert_unix_time_to_ntp
    have htemp : mod32 (t + TIME_NTP_EPOCH_OFFSET_SEC) = t + 2208988800 := by
      unfold mod32 TIME_NTP_EPOCH_OFFSET_SEC
      omega
    rw [htemp]
    rw [if_pos]
    simp only [is_valid_time, TIME_NTP_EPOCH_OFFSET_SEC]
    simp only [Bool.and_eq_true, decide_eq_true_eq]
    omega
  · unfold sl_sleeptimer_convert_ntp_time_to_unix
    have htemp : sub32 (t + ((1970 - 1900) * 365 + 17) * 86400) TIME_NTP_EPOCH_OFFSET_SEC = t := by
      unfold sub32 TIME_NTP_EPOCH_OFFSET_SEC
      omega
    rw [htemp]
    rw [if_pos]
    simp only [is_valid_time, Bool.and_eq_true, decide_eq_true_eq]
    omega
  · unfold sl_sleeptimer_convert_unix_time_to_ntp
    rw [if_neg]
    simp only [is_valid_time, mod32, TIME_NTP_EPOCH_OFFSET_SEC, Bool.and_eq_true,
      decide_eq_true_eq]
    omega
  · unfold sl_sleeptimer_convert_unix_time_to_zigbee
    have htemp : sub32 t TIME_ZIGBEE_EPOCH_OFFSET_SEC = t - ((2000 - 1970) * 365 + 7) * 86400 := by
      unfold sub32 TIME_ZIGBEE_EPOCH_OFFSET_SEC
      omega
    rw [htemp]
    rw [if_pos]
    simp only [is_valid_time, TIME_ZIGBEE_EPOCH_OFFSET_SEC, Bool.and_eq_true, decide_eq_true_eq]
    omega
  · unfold sl_sleeptimer_convert_zigbee_time_to_unix
    have htemp : mod32 (t - ((2000 - 1970) * 365 + 7) * 86400 + TIME_ZIGBEE_EPOCH_OFFSET_SEC)
        = t := by
      unfold mod32 TIME_ZIGBEE_EPOCH_OFFSET_SEC
      omega
    rw [htemp]
    rw [if_pos]
    simp only [is_valid_time, Bool.and_eq_true, decide_eq_true_eq]
    omega
  · unfold sl_sleeptimer_convert_unix_time_to_zigbee
    rw [if_neg]
    simp only [is_valid_time, sub32, TIME_ZIGBEE_EPOCH_OFFSET_SEC, Bool.and_eq_true,
      decide_eq_true_eq]
    omega

/-- Witness for the amended C7 at the timestamp 1700000000. -/
theorem epoch_conversion_round_trip_witness :
    ((1700000000 : Nat) ≤ 2147483647)
      ∧ (((1700000000 : Nat) ≤ 2085978495 →
          sl_sleeptimer_convert_unix_time_to_ntp 1700000000
              = some (1700000000 + ((1970 - 1900) * 365 + 17) * 86400)
            ∧ sl_sleeptimer_convert_ntp_time_to_unix (1700000000 + ((1970 - 1900) * 365 + 17) * 86400)
              = some 1700000000)
        ∧ ((2085978495 : Nat) < 1700000000 →
            sl_sleeptimer_convert_unix_time_to_ntp 1700000000 = none)
        ∧ (((2000 - 1970) * 365 + 7) * 86400 ≤ 1700000000 →
            sl_sleeptimer_convert_unix_time_to_zigbee 1700000000
                = some (1700000000 - ((2000 - 1970) * 365 + 7) * 86400)
              ∧ sl_sleeptimer_convert_zigbee_time_to_unix
                  (1700000000 - ((2000 - 1970) * 365 + 7) * 86400) = some 1700000000)
        ∧ ((1700000000 : Nat) < ((2000 - 1970) * 365 + 7) * 86400 →
            sl_sleeptimer_convert_unix_time_to_zigbee 1700000000 = none)) :=
  ⟨by decide, epoch_conversion_round_trip 1700000000 (by decide)⟩

/-- Claim C9: for a timestamp `t` in the signed 31-bit Unix range with
`t ≥ cnt / freq`, `sl_sleeptimer_set_time t` returns Ok, clears
`overflow_tick_rest` and rebases `second_count` so that an immediately
following `sl_sleeptimer_get_time` (same counter value) returns exactly
`t`; any 32-bit timestamp above `2^31 - 1` is rejected with
InvalidParameter. -/
theorem set_time_rebases_get_time (c : ClockState) (cnt freq t : Nat)
    (hfreq : 0 < freq) (hval : t ≤ 2147483647) (hcnt : cnt / freq ≤ t) :
    (sl_sleeptimer_set_time c cnt freq t).1 = .ok
      ∧ (sl_sleeptimer_set_time c cnt freq t).2.overflow_tick_rest = 0
      ∧ sl_sleeptimer_get_time (sl_sleeptimer_set_time c cnt freq t).2 cnt freq = t
      ∧ ∀ t2, t2 < 4294967296 → 2147483647 < t2 →
          (sl_sleeptimer_set_time c cnt freq t2).1 = .invalid_parameter := by
  have hvalid : is_valid_time t .unix 0 = true := by
    simp only [is_valid_time, Bool.and_eq_true, decide_eq_true_eq]
    omega
  refine ⟨?_, ?_, ?_, fun t2 h32 hbig => ?_⟩
  · simp [sl_sleeptimer_set_time, hvalid, hcnt]
  · simp [sl_sleeptimer_set_time, hvalid, hcnt]
  · simp only [sl_sleeptimer_set_time, hvalid, if_pos, hcnt, if_true]
    simp only [sl_sleeptimer_get_time, mod32]
    have hmod : cnt % freq < freq := Nat.mod_lt cnt hfreq
    rw [if_neg (by omega)]
    omega
  · have hinv : is_valid_time t2 .unix 0 = false := by
      simp only [is_valid_time, Bool.and_eq_true, decide_eq_true_eq, Bool.and_eq_false_iff,
        decide_eq_false_iff_not]
      right
      omega
    simp [sl_sleeptimer_set_time, hinv]

/-- Witness for C9: set the clock to 1700000000 with the counter at three
seconds worth of ticks. -/
theorem set_time_rebases_get_time_witness :
    ((0 : Nat) < 32768 ∧ (1700000000 : Nat) ≤ 2147483647 ∧ 98304 / 32768 ≤ 1700000000)
      ∧ ((sl_sleeptimer_set_time ⟨0, 5⟩ 98304 32768 1700000000).1 = .ok
        ∧ (sl_sleeptimer_set_time ⟨0, 5⟩ 98304 32768 1700000000).2.overflow_tick_rest = 0
        ∧ sl_sleeptimer_get_time (sl_sleeptimer_set_time ⟨0, 5⟩ 98304 32768 1700000000).2
            98304 32768 = 1700000000
        ∧ ∀ t2, t2 < 4294967296 → 2147483647 < t2 →
            (sl_sleeptimer_set_time ⟨0, 5⟩ 98304 32768 t2).1 = .invalid_parameter) :=
  ⟨by decide, set_time_rebases_get_time ⟨0, 5⟩ 98304 32768 1700000000
    (by decide) (by decide) (by decide)⟩

/-- Wrapping difference of a value with itself is zero. -/
theorem sub32_self (a : Nat) : sub32 a a = 0 := by
  unfold sub32
  omega

/-- The filtered scan returns Empty when no node carries the requested
flags. -/
theorem grtLoop_no_match (flags : Nat) :
    ∀ (l : List Timer) (acc : Nat), (∀ t ∈ l, t.option_flags ≠ flags) →
      grtLoop l flags acc = (.empty, none) := by
  intro l
  induction l with
  | nil => intro acc _; rfl
  | cons t rest ih =>
    intro acc hno
    have ht : t.option_flags ≠ flags := hno t (by simp)
    simp only [grtLoop, if_neg ht]
    exact ih _ fun u hu => hno u (by simp [hu])

/-- The filtered scan returns the accumulated prefix-delta sum through the
first matching node, modulo `2^32`. -/
theorem grtLoop_match (flags : Nat) :
    ∀ (l : List Timer) (acc : Nat) (m : Timer),
      l.find? (fun t => t.option_flags == flags) = some m →
      (l.map Timer.id).Nodup →
      grtLoop l flags acc = (.ok, some ((acc + sumThrough l m.id) % 4294967296)) := by
  intro l
  induction l with
  | nil => intro acc m hf _; simp at hf
  | cons t rest ih =>
    intro acc m hf hnd
    by_cases ht : t.option_flags = flags
    · have hm : m = t := by
        rw [List.find?_cons_of_pos] at hf
        · exact (Option.some.injEq _ _ ▸ hf).symm
        · simpa using ht
      subst hm
      simp [grtLoop, ht, sumThrough, mod32]
    · rw [List.find?_cons_of_neg] at hf
      · have hmem : m ∈ rest := List.mem_of_find?_eq_some hf
        have hne : t.id ≠ m.id := by
          intro hh
          simp only [List.map_cons, List.nodup_cons] at hnd
          exact hnd.1 (hh ▸ List.mem_map_of_mem Timer.id hmem)
        have hnd2 : (rest.map Timer.id).Nodup := by
          simp only [List.map_cons, List.nodup_cons] at hnd
          exact hnd.2
        have hrec := ih (mod32 (acc + t.delta)) m hf hnd2
        simp only [mod32] at hrec
        simp only [grtLoop, if_neg ht, hrec, sumThrough, if_neg hne, mod32,
          Prod.mk.injEq, Option.some.injEq, true_and]
        omega
      · simpa using ht

/-- Claim C10: `sl_sleeptimer_get_remaining_time_of_first_timer` returns the
raw sum of the deltas from the head through the first node whose
`option_flags` equals the requested flags (mod `2^32`), without ageing the
head and without subtracting the ticks elapsed since
`last_delta_update_count` — so when the head itself matches, its result
exceeds `sl_sleeptimer_get_timer_time_remaining`'s result by exactly the
elapsed ticks; with no matching node it returns Empty and leaves the
output unwritten. -/
theorem get_remaining_first_timer_raw_sum (s : SchedState) (flags cnt : Nat) :
    ((∀ t ∈ s.timer_head, t.option_flags ≠ flags) →
        sl_sleeptimer_get_remaining_time_of_first_timer s flags = (.empty, none))
      ∧ (∀ m, s.timer_head.find? (fun t => t.option_flags == flags) = some m →
          (s.timer_head.map Timer.id).Nodup →
          sl_sleeptimer_get_remaining_time_of_first_timer s flags
            = (.ok, some (sumThrough s.timer_head m.id % 4294967296)))
      ∧ (∀ hd rest, s.timer_head = hd :: rest → hd.option_flags = flags →
          hd.delta < 4294967296 → sub32 cnt s.last_delta_update_count ≤ hd.delta →
          (sl_sleeptimer_get_remaining_time_of_first_timer s flags).2
            = some ((sl_sleeptimer_get_timer_time_remaining s cnt hd 0).2.2
                + sub32 cnt s.last_delta_update_count)) := by
  refine ⟨fun hno => grtLoop_no_match flags s.timer_head 0 hno,
    fun m hf hnd => by simpa using grtLoop_match flags s.timer_head 0 m hf hnd,
    fun hd rest hl hfl hlt hel => ?_⟩
  have hgrt : sl_sleeptimer_get_remaining_time_of_first_timer s flags
      = (.ok, some hd.delta) := by
    unfold sl_sleeptimer_get_remaining_time_of_first_timer
    rw [hl]
    simp only [grtLoop, if_pos hfl, mod32]
    congr 2
    omega
  have hupd : update_first_timer_delta s cnt
      = { timer_head := { hd with delta := hd.delta - sub32 cnt s.last_delta_update_count } :: rest,
          last_delta_update_count := cnt } := by
    unfold update_first_timer_delta
    rw [hl]
    simp [hel]
  have hgtr : (sl_sleeptimer_get_timer_time_remaining s cnt hd 0).2.2
      = hd.delta - sub32 cnt s.last_delta_update_count := by
    have hhd : handleDelta
        ({ hd with delta := hd.delta - sub32 cnt s.last_delta_update_count } :: rest) hd
        = hd.delta - sub32 cnt s.last_delta_update_count := by
      unfold handleDelta
      rw [List.find?_cons_of_pos _ (by simp)]
    have hsu : sumUntilId
        ({ hd with delta := hd.delta - sub32 cnt s.last_delta_update_count } :: rest) hd.id
        = 0 := by
      simp [sumUntilId]
    simp only [sl_sleeptimer_get_timer_time_remaining, hupd, hhd, hsu, sub32_self,
      Nat.add_zero, mod32]
    have hcond : ((({ hd with delta := hd.delta - sub32 cnt s.last_delta_update_count }
        :: rest).map Timer.id).contains hd.id) = true := by
      simp
    simp only [hcond, if_true]
    split
    · simp only [Prod.snd]
      omega
    · simp only [Prod.snd]
      omega
  rw [hgrt, hgtr]
  simp only [Option.some.injEq]
  omega

/-- Witness for C10 at a concrete state whose head carries the flags. -/
theorem get_remaining_first_timer_raw_sum_witness :
    sl_sleeptimer_get_remaining_time_of_first_timer exSched 7 = (.empty, none)
      ∧ sl_sleeptimer_get_remaining_time_of_first_timer exSched 0
        = (.ok, some (sumThrough exSched.timer_head exTimerOn.id % 4294967296))
      ∧ (sl_sleeptimer_get_remaining_time_of_first_timer exSched 0).2
        = some ((sl_sleeptimer_get_timer_time_remaining exSched 103 exTimerOn 0).2.2
            + sub32 103 exSched.last_delta_update_count) :=
  ⟨(get_remaining_first_timer_raw_sum exSched 7 103).1 (by decide),
   (get_remaining_first_timer_raw_sum exSched 0 103).2.1 exTimerOn (by decide) (by decide),
   (get_remaining_first_timer_raw_sum exSched 0 103).2.2 exTimerOn [] (by decide) (by decide)
     (by decide) (by decide)⟩

/-! ## Lemmas for the dispatch loop of `process_timer_irq` -/

/-- The expired segment is an initial segment of the list. -/
theorem expiredSeg_append :
    ∀ (l : List Timer) (dtot : Nat), ∃ r, l = expiredSeg l dtot ++ r := by
  intro l
  induction l with
  | nil => intro dtot; exact ⟨[], rfl⟩
  | cons t rest ih =>
    intro dtot
    by_cases ht : t.delta ≤ dtot
    · obtain ⟨r, hr⟩ := ih (dtot - t.delta)
      exact ⟨r, by simpa [expiredSeg, ht] using hr⟩
    · exact ⟨t :: rest, by simp [expiredSeg, ht]⟩

/-- Every node of the expired segment has `delta` at most the budget. -/
theorem expiredSeg_delta_le :
    ∀ (l : List Timer) (dtot : Nat) (x : Timer), x ∈ expiredSeg l dtot → x.delta ≤ dtot := by
  intro l
  induction l with
  | nil => intro dtot x hx; simp [expiredSeg] at hx
  | cons t rest ih =>
    intro dtot x hx
    by_cases ht : t.delta ≤ dtot
    · simp only [expiredSeg, if_pos ht, List.mem_cons] at hx
      rcases hx with hx | hx
      · rw [hx]; exact ht
      · have := ih (dtot - t.delta) x hx
        omega
    · simp [expiredSeg, ht] at hx

/-- Membership in the expired segment implies membership in the list. -/
theorem expiredSeg_subset (l : List Timer) (dtot : Nat) (x : Timer)
    (hx : x ∈ expiredSeg l dtot) : x ∈ l := by
  obtain ⟨r, hr⟩ := expiredSeg_append l dtot
  rw [hr]
  exact List.mem_append_left r hx

/-- A before-relation that holds in a list still holds after appending. -/
theorem idsBefore_append (i j : Nat) :
    ∀ (E r : List Timer), idsBefore E i j = true → idsBefore (E ++ r) i j = true := by
  intro E
  induction E with
  | nil => intro r h; simp [idsBefore] at h
  | cons t rest ih =>
    intro r h
    by_cases ht : t.id = i
    · simp only [List.cons_append, idsBefore, if_pos ht] at h ⊢
      rw [List.contains_iff_exists_mem_beq] at h ⊢
      obtain ⟨a, ha, hab⟩ := h
      refine ⟨a, ?_, hab⟩
      show a ∈ List.map Timer.id (rest ++ r)
      rw [List.map_append]
      exact List.mem_append_left _ ha
    · simp only [List.cons_append, idsBefore, if_neg ht] at h ⊢
      exact ih r h

/-- The right argument of a true before-relation occurs in the list. -/
theorem idsBefore_mem_right (i j : Nat) :
    ∀ l : List Timer, idsBefore l i j = true → j ∈ l.map Timer.id := by
  intro l
  induction l with
  | nil => intro h; simp [idsBefore] at h
  | cons t rest ih =>
    intro h
    by_cases ht : t.id = i
    · simp only [idsBefore, if_pos ht] at h
      rw [List.contains_iff_exists_mem_beq] at h
      obtain ⟨a, ha, hab⟩ := h
      have : j = a := by simpa using hab
      simp [this ▸ ha]
    · simp only [idsBefore, if_neg ht] at h
      simp [ih h]

/-- Erasure yields a sublist. -/
theorem eraseFirstId_sublist : ∀ (l : List Timer) (k : Nat), (eraseFirstId l k).Sublist l := by
  intro l
  induction l with
  | nil => intro k; simp [eraseFirstId]
  | cons t rest ih =>
    intro k
    by_cases hk : t.id = k
    · rw [eraseFirstId, if_pos hk]
      exact List.sublist_cons_self t rest
    · rw [eraseFirstId, if_neg hk]
      exact List.Sublist.cons₂ t (ih k)

/-- Erasing a node cannot create a before-relation that did not already
hold in the original list. -/
theorem idsBefore_erase (k i j : Nat) :
    ∀ l : List Timer, idsBefore (eraseFirstId l k) i j = true → idsBefore l i j = true := by
  intro l
  induction l with
  | nil => intro h; simp [eraseFirstId, idsBefore] at h
  | cons t rest ih =>
    intro h
    by_cases hk : t.id = k
    · rw [eraseFirstId, if_pos hk] at h
      by_cases ht : t.id = i
      · rw [idsBefore, if_pos ht]
        have hj := idsBefore_mem_right i j rest h
        rw [List.contains_iff_exists_mem_beq]
        exact ⟨j, hj, by simp⟩
      · rw [idsBefore, if_neg ht]
        exact h
    · rw [eraseFirstId, if_neg hk] at h
      by_cases ht : t.id = i
      · rw [idsBefore, if_pos ht] at h ⊢
        rw [List.contains_iff_exists_mem_beq] at h ⊢
        obtain ⟨a, ha, hab⟩ := h
        exact ⟨a, ((eraseFirstId_sublist rest k).map Timer.id).subset ha, hab⟩
      · rw [idsBefore, if_neg ht] at h ⊢
        exact ih h

/-- Zeroing the delta of an absent id changes nothing. -/
theorem setDeltaZero_not_mem (i : Nat) :
    ∀ l : List Timer, i ∉ l.map Timer.id → setDeltaZero l i = l := by
  intro l
  induction l with
  | nil => intro _; rfl
  | cons t rest ih =>
    intro hm
    have ht : t.id ≠ i := fun hh => hm (by simp [hh])
    have hm2 : i ∉ rest.map Timer.id := fun hh => hm (by simp [hh])
    simp only [setDeltaZero, List.map_cons, if_neg ht]
    rw [show List.map (fun t => if t.id = i then { t with delta := 0 } else t) rest
        = setDeltaZero rest i from rfl, ih hm2]

/-- Removing a node right after zeroing its delta (as the dispatch loop
does) erases it from the list and leaves every other node, including the
successor, unchanged. -/
theorem remove_setDeltaZero :
    ∀ l : List Timer, ∀ i : Nat, i ∈ l.map Timer.id → (l.map Timer.id).Nodup →
      (∀ t ∈ l, t.delta < 4294967296) →
      delta_list_remove_timer (setDeltaZero l i) i = some (eraseFirstId l i) := by
  intro l
  induction l with
  | nil => intro i hm _ _; simp at hm
  | cons t rest ih =>
    intro i hm hnd hwf
    simp only [List.map_cons, List.nodup_cons] at hnd
    by_cases ht : t.id = i
    · have hrest : setDeltaZero rest i = rest := by
        refine setDeltaZero_not_mem i rest ?_
        intro hh
        exact hnd.1 (ht ▸ hh)
      simp only [setDeltaZero, List.map_cons, if_pos ht]
      rw [show List.map (fun t => if t.id = i then { t with delta := 0 } else t) rest
          = setDeltaZero rest i from rfl, hrest]
      simp only [delta_list_remove_timer, if_pos ht, eraseFirstId]
      cases rest with
      | nil => rfl
      | cons n rest2 =>
        have hn : n.delta < 4294967296 := hwf n (by simp)
        simp [mod32, Nat.mod_eq_of_lt hn]
    · have hm2 : i ∈ rest.map Timer.id := by
        simp only [List.map_cons, List.mem_cons] at hm
        rcases hm with hm | hm
        · exact absurd hm.symm ht
        · exact hm
      have hwf2 : ∀ u ∈ rest, u.delta < 4294967296 := fun u hu => hwf u (by simp [hu])
      simp only [setDeltaZero, List.map_cons, if_neg ht]
      rw [show List.map (fun t => if t.id = i then { t with delta := 0 } else t) rest
          = setDeltaZero rest i from rfl]
      simp only [delta_list_remove_timer]
      rw [if_neg ht, ih i hm2 hnd.2 hwf2]
      simp [eraseFirstId, if_neg ht]

/-- Erasing the id of the distinguished middle node of a decomposition
removes exactly that node when the ids to its left differ from it. -/
theorem eraseFirstId_append (m : Timer) :
    ∀ (F1 F2 : List Timer), m.id ∉ F1.map Timer.id →
      eraseFirstId (F1 ++ m :: F2) m.id = F1 ++ F2 := by
  intro F1
  induction F1 with
  | nil => intro F2 _; simp [eraseFirstId]
  | cons a F1t ih =>
    intro F2 hm
    have ha : a.id ≠ m.id := fun hh => hm (by simp [hh])
    have hm2 : m.id ∉ F1t.map Timer.id := fun hh => hm (by simp [hh])
    simp only [List.cons_append, eraseFirstId, if_neg ha]
    exact congrArg (fun z => a :: z) (ih F2 hm2)

/-- The distinguished middle node is before every node of the right part,
provided the ids to its left differ from it. -/
theorem idsBefore_middle (m x : Timer) :
    ∀ (F1 F2 : List Timer), m.id ∉ F1.map Timer.id → x ∈ F2 →
      idsBefore (F1 ++ m :: F2) m.id x.id = true := by
  intro F1
  induction F1 with
  | nil =>
    intro F2 _ hx
    simp only [List.nil_append, idsBefore, if_pos rfl]
    simp [List.contains_iff_exists_mem_beq]
    exact ⟨x, hx, rfl⟩
  | cons a F1t ih =>
    intro F2 hm hx
    have ha : a.id ≠ m.id := fun hh => hm (by simp [hh])
    have hm2 : m.id ∉ F1t.map Timer.id := fun hh => hm (by simp [hh])
    simp only [List.cons_append, idsBefore, if_neg ha]
    exact ih F2 hm2 hx

/-- Decomposition of the inner scan: walking `l` with running budget `dtot`
starting from candidate `cur`, the selected timer is the first
minimum-priority element of `cur :: expiredSeg l dtot`: everything before
it has strictly greater priority, everything after it at least its
priority. -/
theorem pickExpired_decomp :
    ∀ (l : List Timer) (cur : Timer) (dtot : Nat),
      ∃ E1 E2, cur :: expiredSeg l dtot = E1 ++ pickExpired cur dtot l :: E2
        ∧ (∀ x ∈ E1, (pickExpired cur dtot l).priority < x.priority)
        ∧ (∀ x ∈ E2, (pickExpired cur dtot l).priority ≤ x.priority) := by
  intro l
  induction l with
  | nil =>
    intro cur dtot
    exact ⟨[], [], by simp [expiredSeg, pickExpired], by simp, by simp⟩
  | cons t rest ih =>
    intro cur dtot
    by_cases ht : t.delta ≤ dtot
    · simp only [expiredSeg, pickExpired, if_pos ht]
      by_cases hp : t.priority < cur.priority
      · rw [if_pos hp]
        obtain ⟨E1, E2, hEq, h1, h2⟩ := ih t (dtot - t.delta)
        refine ⟨cur :: E1, E2, ?_, ?_, h2⟩
        · rw [List.cons_append]
          exact congrArg (fun z => cur :: z) hEq
        · intro x hx
          have hmt : (pickExpired t (dtot - t.delta) rest).priority ≤ t.priority := by
            cases E1 with
            | nil =>
              rw [List.nil_append] at hEq
              injection hEq with hhm _
              rw [← hhm]
            | cons e1 E1t =>
              rw [List.cons_append] at hEq
              injection hEq with hhe _
              exact le_of_lt (hhe ▸ h1 e1 (by simp))
          rcases List.mem_cons.mp hx with hx | hx
          · rw [hx]
            omega
          · exact h1 x hx
      · rw [if_neg hp]
        obtain ⟨E1, E2, hEq, h1, h2⟩ := ih cur (dtot - t.delta)
        cases E1 with
        | nil =>
          rw [List.nil_append] at hEq
          injection hEq with hhm hEt
          refine ⟨[], t :: expiredSeg rest (dtot - t.delta), ?_, by simp, ?_⟩
          · rw [List.nil_append, ← hhm]
          · intro x hx
            rcases List.mem_cons.mp hx with hx | hx
            · rw [hx, ← hhm]
              omega
            · exact h2 x (hEt ▸ hx)
        | cons e1 E1t =>
          rw [List.cons_append] at hEq
          injection hEq with hhe hEt
          refine ⟨cur :: t :: E1t, E2, ?_, ?_, h2⟩
          · rw [List.cons_append, List.cons_append]
            exact congrArg (fun z => cur :: t :: z) hEt
          · intro x hx
            have hcurp : (pickExpired cur (dtot - t.delta) rest).priority < cur.priority :=
              hhe ▸ h1 e1 (by simp)
            rcases List.mem_cons.mp hx with hx | hx
            · rw [hx]
              exact hcurp
            · rcases List.mem_cons.mp hx with hx | hx
              · rw [hx]
                omega
              · exact h1 x (by simp [hx])
    · simp only [expiredSeg, pickExpired, if_neg ht]
      exact ⟨[], [], rfl, by simp, by simp⟩

/-- Specialisation of the decomposition to the outer loop's call, which
starts the scan at the list head: the selected timer is the first
minimum-priority element of the expired segment itself. -/
theorem pickExpired_seg_decomp (h : Timer) (rest : List Timer) (dtot : Nat)
    (hh : h.delta ≤ dtot) :
    ∃ F1 F2, expiredSeg (h :: rest) dtot
        = F1 ++ pickExpired h dtot (h :: rest) :: F2
      ∧ (∀ x ∈ F1, (pickExpired h dtot (h :: rest)).priority < x.priority)
      ∧ (∀ x ∈ F2, (pickExpired h dtot (h :: rest)).priority ≤ x.priority) := by
  obtain ⟨E1, E2, hEq, h1, h2⟩ := pickExpired_decomp (h :: rest) h dtot
  cases E1 with
  | nil =>
    rw [List.nil_append] at hEq
    injection hEq with hhm hEt
    refine ⟨[], expiredSeg rest (dtot - h.delta), ?_, by simp, ?_⟩
    · rw [List.nil_append, expiredSeg, if_pos hh, ← hhm]
    · intro x hx
      refine h2 x (hEt ▸ ?_)
      rw [expiredSeg, if_pos hh]
      exact List.mem_cons_of_mem h hx
  | cons e1 E1t =>
    rw [List.cons_append] at hEq
    injection hEq with hhe hEt
    exact ⟨E1t, E2, hEt, fun x hx => h1 x (by simp [hx]), h2⟩

/-- Removing the selected expired timer and shrinking the budget by its
delta erases it from the expired segment and keeps the segment otherwise
intact: nodes before it lose nothing (their cumulative fits because the
removed node rode behind them), and nodes after it gain exactly what the
budget loses. -/
theorem expiredSeg_erase (m : Timer) :
    ∀ (l : List Timer) (dtot : Nat), (l.map Timer.id).Nodup →
      m ∈ expiredSeg l dtot →
      expiredSeg (eraseFirstId l m.id) (dtot - m.delta)
        = eraseFirstId (expiredSeg l dtot) m.id := by
  intro l
  induction l with
  | nil => intro dtot _ hm; simp [expiredSeg] at hm
  | cons t rest ih =>
    intro dtot hnd hm
    simp only [List.map_cons, List.nodup_cons] at hnd
    by_cases ht : t.delta ≤ dtot
    · rw [expiredSeg, if_pos ht] at hm
      by_cases hid : t.id = m.id
      · have hmt : m = t := by
          rcases List.mem_cons.mp hm with hm | hm
          · exact hm.symm ▸ rfl
          · exfalso
            have := List.mem_map_of_mem Timer.id (expiredSeg_subset rest (dtot - t.delta) m hm)
            exact hnd.1 (hid ▸ this)
        rw [eraseFirstId, if_pos hid, expiredSeg, if_pos ht, eraseFirstId, if_pos hid, hmt]
      · have hm2 : m ∈ expiredSeg rest (dtot - t.delta) := by
          rcases List.mem_cons.mp hm with hm | hm
          · exact absurd (congrArg Timer.id hm.symm) hid
          · exact hm
        have hmd : m.delta ≤ dtot - t.delta := expiredSeg_delta_le rest (dtot - t.delta) m hm2
        have htm : t.delta ≤ dtot - m.delta := by omega
        rw [eraseFirstId, if_neg hid, expiredSeg, if_pos htm, expiredSeg, if_pos ht,
          eraseFirstId, if_neg hid]
        have hsub : dtot - m.delta - t.delta = dtot - t.delta - m.delta := by omega
        rw [hsub, ih (dtot - t.delta) hnd.2 hm2]
    · rw [expiredSeg, if_neg ht] at hm
      simp at hm

/-- In a list of distinct naturals split around `a`, `a` does not occur on
the left of the split. -/
theorem nodup_append_not_mem_left (a : Nat) :
    ∀ (l1 l2 : List Nat), (l1 ++ a :: l2).Nodup → a ∉ l1 := by
  intro l1
  induction l1 with
  | nil => intro l2 _; simp
  | cons b l1t ih =>
    intro l2 hnd
    rw [List.cons_append, List.nodup_cons] at hnd
    intro hmem
    rcases List.mem_cons.mp hmem with hab | hmem
    · exact hnd.1 (hab ▸ List.mem_append_right l1t (List.mem_cons_self a l2))
    · exact ih l2 hnd.2 hmem

/-- Soundness of the dispatch loop for one-shot timer lists with well-formed
32-bit deltas and distinct handles: every dispatched timer lies in the
expired segment, and the dispatch order respects `firesBeforeRel`:
non-decreasing priority, ties broken by position in the delta list. -/
theorem dispatchLoop_sound :
    ∀ (fuel : Nat) (l : List Timer) (dtot : Nat),
      (∀ t ∈ l, t.delta < 4294967296) → (l.map Timer.id).Nodup →
      (∀ t ∈ l, t.timeout_periodic = 0) →
      (∀ x ∈ (dispatchLoop fuel l dtot).1, x ∈ expiredSeg l dtot)
        ∧ (dispatchLoop fuel l dtot).1.Pairwise (firesBeforeRel l) := by
  intro fuel
  induction fuel with
  | zero =>
    intro l dtot _ _ _
    exact ⟨by simp [dispatchLoop], by simp [dispatchLoop]⟩
  | succ fuel ih =>
    intro l dtot hwf hnd hos
    cases l with
    | nil => exact ⟨by simp [dispatchLoop], by simp [dispatchLoop]⟩
    | cons h rest =>
      by_cases hh : h.delta ≤ dtot
      case neg => exact ⟨by simp [dispatchLoop, hh], by simp [dispatchLoop, hh]⟩
      case pos =>
      obtain ⟨F1, F2, hE, hF1, hF2⟩ := pickExpired_seg_decomp h rest dtot hh
      have hmE : pickExpired h dtot (h :: rest) ∈ expiredSeg (h :: rest) dtot := by
        rw [hE]
        exact List.mem_append_right F1 (List.mem_cons_self _ F2)
      have hmL : pickExpired h dtot (h :: rest) ∈ h :: rest :=
        expiredSeg_subset (h :: rest) dtot _ hmE
      have hmId : (pickExpired h dtot (h :: rest)).id ∈ (h :: rest).map Timer.id :=
        List.mem_map_of_mem Timer.id hmL
      have hrm : delta_list_remove_timer
          (setDeltaZero (h :: rest) (pickExpired h dtot (h :: rest)).id)
          (pickExpired h dtot (h :: rest)).id
          = some (eraseFirstId (h :: rest) (pickExpired h dtot (h :: rest)).id) :=
        remove_setDeltaZero (h :: rest) _ hmId hnd hwf
      have hosm : (pickExpired h dtot (h :: rest)).timeout_periodic = 0 := hos _ hmL
      have hstep : dispatchLoop (fuel + 1) (h :: rest) dtot
          = (pickExpired h dtot (h :: rest)
              :: (dispatchLoop fuel (eraseFirstId (h :: rest) (pickExpired h dtot (h :: rest)).id)
                  (dtot - (pickExpired h dtot (h :: rest)).delta)).1,
             (dispatchLoop fuel (eraseFirstId (h :: rest) (pickExpired h dtot (h :: rest)).id)
                  (dtot - (pickExpired h dtot (h :: rest)).delta)).2) := by
        simp only [dispatchLoop, if_pos hh, hrm, Option.getD_some, hosm, ne_eq,
          not_true_eq_false, if_neg, ite_false]
      have hwf2 : ∀ t ∈ eraseFirstId (h :: rest) (pickExpired h dtot (h :: rest)).id,
          t.delta < 4294967296 := fun t htm =>
        hwf t ((eraseFirstId_sublist (h :: rest) _).subset htm)
      have hnd2 : ((eraseFirstId (h :: rest) (pickExpired h dtot (h :: rest)).id).map
          Timer.id).Nodup :=
        hnd.sublist ((eraseFirstId_sublist (h :: rest) _).map Timer.id)
      have hos2 : ∀ t ∈ eraseFirstId (h :: rest) (pickExpired h dtot (h :: rest)).id,
          t.timeout_periodic = 0 := fun t htm =>
        hos t ((eraseFirstId_sublist (h :: rest) _).subset htm)
      obtain ⟨ihmem, ihpw⟩ := ih
        (eraseFirstId (h :: rest) (pickExpired h dtot (h :: rest)).id)
        (dtot - (pickExpired h dtot (h :: rest)).delta) hwf2 hnd2 hos2
      have hndE : ((expiredSeg (h :: rest) dtot).map Timer.id).Nodup := by
        obtain ⟨r, hr⟩ := expiredSeg_append (h :: rest) dtot
        have : ((expiredSeg (h :: rest) dtot ++ r).map Timer.id).Nodup := hr ▸ hnd
        rw [List.map_append] at this
        exact this.of_append_left
      have hmF1 : (pickExpired h dtot (h :: rest)).id ∉ F1.map Timer.id := by
        have := hndE
        rw [hE, List.map_append, List.map_cons] at this
        exact nodup_append_not_mem_left _ _ _ this
      have hseg2 : expiredSeg (eraseFirstId (h :: rest) (pickExpired h dtot (h :: rest)).id)
          (dtot - (pickExpired h dtot (h :: rest)).delta) = F1 ++ F2 := by
        rw [expiredSeg_erase _ (h :: rest) dtot hnd hmE, hE, eraseFirstId_append _ F1 F2 hmF1]
      constructor
      · intro x hx
        rw [hstep] at hx
        rcases List.mem_cons.mp hx with hx | hx
        · rw [hx]
          exact hmE
        · have := ihmem x hx
          rw [hseg2] at this
          rw [hE]
          rcases List.mem_append.mp this with hmem | hmem
          · exact List.mem_append_left _ hmem
          · exact List.mem_append_right _ (List.mem_cons_of_mem _ hmem)
      · rw [hstep]
        refine List.Pairwise.cons ?_ (ihpw.imp ?_)
        · intro x hx
          have hxseg := ihmem x hx
          rw [hseg2] at hxseg
          rcases List.mem_append.mp hxseg with hmem | hmem
          · exact Or.inl (hF1 x hmem)
          · rcases Nat.lt_or_ge (pickExpired h dtot (h :: rest)).priority x.priority with hlt | hge
            · exact Or.inl hlt
            · have heq : (pickExpired h dtot (h :: rest)).priority = x.priority :=
                Nat.le_antisymm (hF2 x hmem) hge
              refine Or.inr ⟨heq, ?_⟩
              obtain ⟨r, hr⟩ := expiredSeg_append (h :: rest) dtot
              have hmid : idsBefore (expiredSeg (h :: rest) dtot)
                  (pickExpired h dtot (h :: rest)).id x.id = true := by
                rw [hE]
                exact idsBefore_middle _ x F1 F2 hmF1 hmem
              have happ := idsBefore_append _ _ (expiredSeg (h :: rest) dtot) r hmid
              rw [← hr] at happ
              exact happ
        · intro a b hab
          rcases hab with hab | hab
          · exact Or.inl hab
          · exact Or.inr ⟨hab.1, idsBefore_erase _ _ _ (h :: rest) hab.2⟩

/-- Counterexample to C2 as stated: insert `exInsB` (id 0) with timeout 7
and then `exInsA` (id 1) with timeout 5, both priority 1, into an empty
list; with the whole window expired (`delta_tot = 7`) the compare branch
dispatches id 1 before id 0, so with equal priorities the *later-inserted*
timer fires first (list order — here deadline order — decides, not
insertion order). -/
theorem dispatch_insertion_order_counterexample :
    exInsA.priority = exInsB.priority
      ∧ (dispatchFired (delta_list_insert_timer (delta_list_insert_timer [] exInsB 7) exInsA 5)
          7 3).map Timer.id = [exInsA.id, exInsB.id]
      ∧ exInsA.id ≠ exInsB.id := by
  decide

/-- Claim C2, amended: when the compare branch of `process_timer_irq`
dispatches one-shot timers within one compare window (counter frozen,
callbacks leaving the list alone), every dispatched timer lies in the
expired segment and the callback order respects non-decreasing numeric
priority, with ties between equal priorities broken by position in the
delta list (nearer the head fires first) — for timers with equal absolute
fire ticks that position order coincides with insertion order, but for
distinct deadlines within the window it is deadline order, not insertion
order. -/
theorem dispatch_priority_list_order (l : List Timer) (dtot fuel : Nat)
    (hwf : ∀ t ∈ l, t.delta < 4294967296) (hnd : (l.map Timer.id).Nodup)
    (hos : ∀ t ∈ l, t.timeout_periodic = 0) :
    (∀ x ∈ dispatchFired l dtot fuel, x ∈ expiredSeg l dtot)
      ∧ (dispatchFired l dtot fuel).Pairwise (firesBeforeRel l) :=
  dispatchLoop_sound fuel l dtot hwf hnd hos

/-- Witness for the amended C2 on a concrete two-timer list. -/
theorem dispatch_priority_list_order_witness :
    ((∀ t ∈ exListC2, t.delta < 4294967296) ∧ (exListC2.map Timer.id).Nodup
        ∧ (∀ t ∈ exListC2, t.timeout_periodic = 0))
      ∧ ((∀ x ∈ dispatchFired exListC2 7 5, x ∈ expiredSeg exListC2 7)
        ∧ (dispatchFired exListC2 7 5).Pairwise (firesBeforeRel exListC2)) :=
  ⟨⟨by decide, by decide, by decide⟩,
   dispatch_priority_list_order exListC2 7 5 (by decide) (by decide) (by decide)⟩

/-! ## Lemmas for the calendar round trip -/

/-- Exhaustive check of the month table: 2 leap flags x 12 months x 31 days. -/
theorem monthCheck_all : ∀ (flag : Bool), ∀ mo < 12, ∀ dd < 32, monthCheck flag mo dd = true := by
  decide

/-- Consequences of `monthCheck_all` for a day-valid month/day pair. -/
theorem monthCheck_spec (flag : Bool) (mo dd : Nat) (hmo : mo ≤ 11) (hdd1 : 1 ≤ dd)
    (hdd2 : dd ≤ (days_in_month flag).getD mo 0) :
    monthWalk 0 (days_in_month flag) (((days_in_month flag).take mo).sum + (dd - 1))
        = (mo, dd - 1)
      ∧ ((days_in_month flag).take mo).sum + (dd - 1) ≤ 365
      ∧ (((days_in_month flag).take mo).sum + (dd - 1) = 365 → flag = true)
      ∧ (((days_in_month flag).take mo).sum + (dd - 1) = 365 → mo = 11 ∧ dd = 31)
      ∧ ((days_in_month flag).take mo).sum ≤ 335 := by
  have h31 : (days_in_month flag).getD mo 0 ≤ 31 := by
    have hlt : mo < 12 := by omega
    cases flag <;> interval_cases mo <;> decide
  have hall := monthCheck_all flag mo (by omega) dd (by omega)
  rw [monthCheck, if_pos ⟨hmo, hdd1, hdd2⟩] at hall
  exact of_decide_eq_true hall

/-- The year extraction of `sl_sleeptimer_convert_time_to_date` inverts the
year composition of `sl_sleeptimer_convert_date_to_time` on every day
count of a valid year except day 1095 (1972-12-31), where the code
erroneously applies a leap correction. -/
theorem yearAndLeap_eq (fy r : Nat) (hfy : fy ≤ 68) (hr : r ≤ 365)
    (hleap : r = 365 → is_leap_year (70 + fy) = true)
    (hq : ¬(fy = 2 ∧ r = 365)) :
    yearAndLeap (365 * fy + leapC fy + r) = (fy, leapC fy) := by
  have hl : r = 365 → ((70 + fy) % 4 = 0 ∧ ((70 + fy) % 100 ≠ 0 ∨ (70 + fy) % 400 = 0)) := by
    intro h
    have := hleap h
    simpa [is_leap_year, decide_eq_true_iff] using this
  unfold yearAndLeap leapC TIME_LEAP_DAYS_UP_TO_YEAR
  by_cases h2 : fy > 2
  · simp only [if_pos h2]
    split
    · rw [Prod.mk.injEq]
      constructor
      · omega
      · omega
    · rw [Prod.mk.injEq]
      constructor
      · omega
      · omega
  · simp only [if_neg h2]
    split
    · rw [Prod.mk.injEq]
      constructor
      · omega
      · omega
    · rw [Prod.mk.injEq]
      constructor
      · omega
      · omega

/-- Field bounds encoded by `is_valid_date`. -/
theorem is_valid_date_spec (d : Date) (hv : is_valid_date d = true) :
    d.year ≤ 138 ∧ d.month ≤ 11 ∧ 1 ≤ d.month_day
      ∧ d.month_day ≤ (days_in_month (is_leap_year d.year)).getD d.month 0
      ∧ d.hour ≤ 23 ∧ d.min ≤ 59 ∧ d.sec ≤ 59
      ∧ (d.year = 138 →
          d.month = 0 ∧ d.month_day ≤ 19 ∧ d.hour ≤ 3 ∧ d.min ≤ 14 ∧ d.sec ≤ 7) := by
  unfold is_valid_date at hv
  by_cases h1 : d.year > 138 ∨ d.month > 11 ∨ d.month_day = 0
      ∨ d.month_day > (days_in_month (is_leap_year d.year)).getD d.month 0
      ∨ d.hour > 23 ∨ d.min > 59 ∨ d.sec > 59
  · rw [if_pos h1] at hv
    exact absurd hv (by simp)
  · rw [if_neg h1] at hv
    push_neg at h1
    obtain ⟨a1, a2, a3, a4, a5, a6, a7⟩ := h1
    by_cases h2 : d.year = 138
    · rw [if_pos h2] at hv
      have h3 := of_decide_eq_true hv
      push_neg at h3
      obtain ⟨b1, b2, b3, b4, b5⟩ := h3
      exact ⟨a1, a2, by omega, by omega, a5, a6, a7,
        fun _ => ⟨by omega, b2, b3, b4, b5⟩⟩
    · exact ⟨a1, a2, by omega, by omega, a5, a6, a7, fun hh => absurd hh h2⟩

/-- For a valid date at offset zero, `sl_sleeptimer_convert_date_to_time`
returns exactly the unreduced composition: day count times 86400 plus the
seconds within the day (no `uint32` wrap occurs). -/
theorem date_to_time_formula (d : Date) (hv : is_valid_date d = true) (hy : 70 ≤ d.year)
    (htz : d.time_zone = 0) :
    sl_sleeptimer_convert_date_to_time d
      = some ((365 * (d.year - 70) + leapC (d.year - 70)
            + (((days_in_month (is_leap_year d.year)).take d.month).sum + (d.month_day - 1)))
            * 86400
          + (3600 * d.hour + 60 * d.min + d.sec)) := by
  obtain ⟨hy138, hmo, hdd1, hdd2, hh, hmi, hs, _⟩ := is_valid_date_spec d hv
  obtain ⟨_, _, _, _, hsum⟩ :=
    monthCheck_spec (is_leap_year d.year) d.month d.month_day hmo hdd1 hdd2
  have h31 : (days_in_month (is_leap_year d.year)).getD d.month 0 ≤ 31 := by
    have hlt : d.month < 12 := by omega
    cases hfl : is_leap_year d.year <;> interval_cases d.month <;> simp [days_in_month]
  simp only [sl_sleeptimer_convert_date_to_time]
  rw [if_pos hv]
  have hfy : ((((d.year : Int) - 70) % 256)).toNat = d.year - 70 := by omega
  rw [hfy]
  have hlc : (if d.year - 70 > 2 then TIME_LEAP_DAYS_UP_TO_YEAR (d.year - 70) else 0)
      = leapC (d.year - 70) := by
    unfold leapC
    rfl
  rw [hlc]
  have hlcb : leapC (d.year - 70) ≤ 17 := by
    unfold leapC TIME_LEAP_DAYS_UP_TO_YEAR
    split
    · omega
    · omega
  rw [htz]
  have hm1 : mod32 ((d.year - 70) * TIME_SEC_PER_YEAR) = (d.year - 70) * TIME_SEC_PER_YEAR := by
    unfold mod32 TIME_SEC_PER_YEAR TIME_SEC_PER_DAY
    have : (d.year - 70) * (60 * 60 * 24 * 365) ≤ 68 * (60 * 60 * 24 * 365) :=
      Nat.mul_le_mul_right _ (by omega)
    omega
  have hm2 : mod32 ((leapC (d.year - 70)
        + ((days_in_month (is_leap_year d.year)).take d.month).sum + (d.month_day - 1))
        * TIME_SEC_PER_DAY)
      = (leapC (d.year - 70)
        + ((days_in_month (is_leap_year d.year)).take d.month).sum + (d.month_day - 1))
        * TIME_SEC_PER_DAY := by
    unfold mod32 TIME_SEC_PER_DAY
    have : (leapC (d.year - 70)
        + ((days_in_month (is_leap_year d.year)).take d.month).sum + (d.month_day - 1))
        * (60 * 60 * 24) ≤ 383 * (60 * 60 * 24) :=
      Nat.mul_le_mul_right _ (by omega)
    omega
  rw [hm1, hm2]
  have hy68 : (d.year - 70) * TIME_SEC_PER_YEAR ≤ 68 * TIME_SEC_PER_YEAR :=
    Nat.mul_le_mul_right _ (by omega)
  have hmd : (leapC (d.year - 70)
      + ((days_in_month (is_leap_year d.year)).take d.month).sum + (d.month_day - 1))
      * TIME_SEC_PER_DAY ≤ 383 * TIME_SEC_PER_DAY :=
    Nat.mul_le_mul_right _ (by omega)
  unfold TIME_SEC_PER_YEAR TIME_SEC_PER_DAY at hy68 hmd ⊢
  simp only [Option.some.injEq]
  have hgoal : (((d.year - 70) * (60 * 60 * 24 * 365)
      + (leapC (d.year - 70)
        + ((days_in_month (is_leap_year d.year)).take d.month).sum + (d.month_day - 1))
        * (60 * 60 * 24)
      + 3600 * d.hour + 60 * d.min + d.sec : Nat) : Int) + 0
      = ((365 * (d.year - 70) + leapC (d.year - 70)
        + (((days_in_month (is_leap_year d.year)).take d.month).sum + (d.month_day - 1)))
        * 86400 + (3600 * d.hour + 60 * d.min + d.sec) : Nat) := by
    push_cast
    ring
  rw [hgoal]
  omega

/-- Counterexample to C8 as stated: the valid date 1972-12-31 00:00:00 (zero
offset) converts to 94608000 s, which decodes back to December *30*, 1972
(the year extraction wrongly subtracts a leap day at day count 1095); and
the valid date 1970-01-01 00:00:00 with offset +3600 converts to 3600 s,
which decodes with the same offset to hour 1 instead of hour 0 (the
offset is added on encoding but not subtracted on decoding). -/
theorem date_round_trip_counterexample :
    is_valid_date exDateQuirk = true
      ∧ sl_sleeptimer_convert_date_to_time exDateQuirk = some 94608000
      ∧ (sl_sleeptimer_convert_time_to_date 94608000 0).map Date.month_day = some 30
      ∧ exDateQuirk.month_day = 31
      ∧ is_valid_date exDateTz = true
      ∧ sl_sleeptimer_convert_date_to_time exDateTz = some 3600
      ∧ (sl_sleeptimer_convert_time_to_date 3600 3600).map Date.hour = some 1
      ∧ exDateTz.hour = 0 := by
  decide

/-- Claim C8, amended: for every valid date from 1970-01-01 through
2038-01-19 03:14:07 with `time_zone = 0`, except December 31, 1972,
`sl_sleeptimer_convert_date_to_time` returns Ok and feeding the timestamp
back through `sl_sleeptimer_convert_time_to_date` (same zero offset)
reproduces the `year`, `month`, `month_day`, `hour`, `min` and `sec`
fields.  (On 1972-12-31 the decoded date is off by one day, and with a
nonzero `time_zone` the decoded fields are shifted by the offset.) -/
theorem date_time_round_trip_tz_zero (d : Date) (hv : is_valid_date d = true)
    (hy : 70 ≤ d.year) (htz : d.time_zone = 0)
    (hq : ¬(d.year = 72 ∧ d.month = 11 ∧ d.month_day = 31)) :
    ∃ T d2, sl_sleeptimer_convert_date_to_time d = some T
      ∧ sl_sleeptimer_convert_time_to_date T 0 = some d2
      ∧ d2.year = d.year ∧ d2.month = d.month ∧ d2.month_day = d.month_day
      ∧ d2.hour = d.hour ∧ d2.min = d.min ∧ d2.sec = d.sec := by
  obtain ⟨hy138, hmo, hdd1, hdd2, hh, hmi, hs, h2038⟩ := is_valid_date_spec d hv
  obtain ⟨hmw, hr365, hrflag, hr31, hsum⟩ :=
    monthCheck_spec (is_leap_year d.year) d.month d.month_day hmo hdd1 hdd2
  have hT := date_to_time_formula d hv hy htz
  set r := ((days_in_month (is_leap_year d.year)).take d.month).sum + (d.month_day - 1)
    with hrdef
  set fy := d.year - 70 with hfydef
  have hyy : 70 + fy = d.year := by omega
  have hlcb : leapC fy ≤ 17 := by
    unfold leapC TIME_LEAP_DAYS_UP_TO_YEAR
    split
    · omega
    · omega
  set D := 365 * fy + leapC fy + r with hDdef
  have hTb : D * 86400 + (3600 * d.hour + 60 * d.min + d.sec) ≤ 2147483647 := by
    by_cases h138 : d.year = 138
    · obtain ⟨hm0, hd19, hh3, hm14, hs7⟩ := h2038 h138
      have hr0 : r = d.month_day - 1 := by
        rw [hrdef, hm0]
        simp
      have hlc68 : leapC 68 = 17 := by decide
      have hfy68 : fy = 68 := by omega
      rw [hDdef, hfy68, hlc68, hr0]
      omega
    · have hD67 : D ≤ 24837 := by
        have hfy67 : fy ≤ 67 := by omega
        rw [hDdef]
        omega
      omega
  have hTval : is_valid_time (D * 86400 + (3600 * d.hour + 60 * d.min + d.sec)) .unix 0
      = true := by
    simp only [is_valid_time, Bool.and_eq_true, decide_eq_true_eq]
    constructor
    · right
      simp only [Int.natAbs_zero]
      omega
    · omega
  have hlp : r = 365 → is_leap_year (70 + fy) = true := by
    intro h365
    rw [hyy]
    exact hrflag h365
  have hqq : ¬(fy = 2 ∧ r = 365) := by
    rintro ⟨hfy2, hre⟩
    obtain ⟨hm11, hd31⟩ := hr31 hre
    exact hq ⟨by omega, hm11, hd31⟩
  have hyl : yearAndLeap D = (fy, leapC fy) := by
    rw [hDdef]
    exact yearAndLeap_eq fy r (by omega) hr365 hlp hqq
  refine ⟨D * 86400 + (3600 * d.hour + 60 * d.min + d.sec),
    { year := d.year, month := d.month, month_day := d.month_day,
      day_of_week := compute_day_of_week D, day_of_year := r + 1,
      hour := d.hour, min := d.min, sec := d.sec, time_zone := 0 }, hT, ?_,
    rfl, rfl, rfl, rfl, rfl, rfl⟩
  simp only [sl_sleeptimer_convert_time_to_date]
  rw [if_pos hTval]
  have e1 : (D * 86400 + (3600 * d.hour + 60 * d.min + d.sec)) % 60 = d.sec := by omega
  have e2 : (D * 86400 + (3600 * d.hour + 60 * d.min + d.sec)) / 60 % 60 = d.min := by omega
  have e3 : (D * 86400 + (3600 * d.hour + 60 * d.min + d.sec)) / 60 / 60 % 24 = d.hour := by
    omega
  have e4 : (D * 86400 + (3600 * d.hour + 60 * d.min + d.sec)) / 60 / 60 / 24 = D := by omega
  rw [e1, e2, e3, e4, hyl]
  simp only [Prod.fst, Prod.snd]
  rw [hyy]
  have e5 : D - leapC fy - 365 * fy = r := by
    rw [hDdef]
    omega
  rw [e5, hmw]
  simp only [Option.some.injEq, Date.mk.injEq, Prod.fst, Prod.snd]
  refine ⟨trivial, trivial, by omega, trivial, trivial, trivial, trivial, trivial, trivial⟩

/-- Witness for the amended C8 on the leap day 2024-02-29 12:00:00. -/
theorem date_time_round_trip_tz_zero_witness :
    (is_valid_date exDateLeap = true ∧ 70 ≤ exDateLeap.year ∧ exDateLeap.time_zone = 0
        ∧ ¬(exDateLeap.year = 72 ∧ exDateLeap.month = 11 ∧ exDateLeap.month_day = 31))
      ∧ ∃ T d2, sl_sleeptimer_convert_date_to_time exDateLeap = some T
        ∧ sl_sleeptimer_convert_time_to_date T 0 = some d2
        ∧ d2.year = exDateLeap.year ∧ d2.month = exDateLeap.month
        ∧ d2.month_day = exDateLeap.month_day ∧ d2.hour = exDateLeap.hour
        ∧ d2.min = exDateLeap.min ∧ d2.sec = exDateLeap.sec :=
  ⟨⟨by decide, by decide, by decide, by decide⟩,
   date_time_round_trip_tz_zero exDateLeap (by decide) (by decide) (by decide) (by decide)⟩

end Sleeptimer
